import Mathlib

/-!
The 7enawy Solutions website script (`src/script.js`).

A shallow embedding of the page script and the properties its specification
states about it.

Modelling conventions used throughout:

* A finite JavaScript number is the rational it denotes. Binary64 arithmetic
  is the exact operation followed by `round64`, rounding to the nearest
  binary64 number with ties to even (`updateCounter64`); `Math.pow`, which
  ECMAScript leaves implementation-approximated, is a parameter. The order
  properties of the counter are stated on the same computation in exact
  arithmetic (`updateCounter`). `Math.floor` is `Int.floor`.
* The result of `parseInt` is a `JSNumber`: `NaN`, an infinity or an integer.
* A `classList` is a list of class names with the `DOMTokenList` operations
  `contains`, `add`, `remove` and `toggle`.
* A document is the list of its elements in document order; the position of an
  element in that list is its identity, and `parent` points at the enclosing
  element.
-/

namespace Site

/-! ## Binary64 numbers -/

/-- The integer nearest to `y`, a tie going to the even neighbour. -/
def roundHalfEven (y : ℚ) : ℤ :=
  if y - ⌊y⌋ < 1 / 2 then ⌊y⌋
  else if 1 / 2 < y - ⌊y⌋ then ⌊y⌋ + 1
  else if ⌊y⌋ % 2 = 0 then ⌊y⌋
  else ⌊y⌋ + 1

/-- The exponent of the spacing of the binary64 numbers around `x`: 52 binary
places below the leading bit, and never below the spacing `2 ^ (-1074)` of the
subnormal numbers. -/
def ulpExponent (x : ℚ) : ℤ :=
  max (Int.log 2 |x| - 52) (-1074)

/-- Rounding to the nearest binary64 number, ties to even: the rounding every
arithmetic operation of a JavaScript number applies to its exact result.
Overflow to an infinity (a result of magnitude `2 ^ 1024` or more) is not
represented; the callers that can meet it test for it. -/
def round64 (x : ℚ) : ℚ :=
  roundHalfEven (x / 2 ^ ulpExponent x) * 2 ^ ulpExponent x

/-- The values `parseInt` can return. -/
inductive JSNumber where
  | nan
  | infinity (negative : Bool)
  | int (n : Int)
deriving DecidableEq, Repr

/-- The integer a number is, if it is one. -/
def JSNumber.toInt? : JSNumber → Option Int
  | .int n => some n
  | _ => none

/-- The Number value of a mathematical integer: the integer itself up to
`2 ^ 53` in magnitude (every such integer is a binary64 number), beyond that
the nearest binary64 number, or an infinity from `2 ^ 1024` on. -/
def numberOfInt (n : Int) : JSNumber :=
  if n.natAbs ≤ 9007199254740992 then .int n
  else if 2 ^ 1024 ≤ round64 (n.natAbs : ℚ) then .infinity (decide (n < 0))
  else .int (n.sign * ⌊round64 (n.natAbs : ℚ)⌋)

/-! ## Animated counters (`animateCounter`, lines 229-257) -/

/-- Source: `const duration = 2000; // 2 seconds` -/
def duration : ℚ := 2000

/-- Source: `const startValue = 0;` -/
def startValue : ℚ := 0

/-- White space skipped by `parseInt` before the number (ECMAScript
`StrWhiteSpaceChar`: white space and line terminators). -/
def isStrWhiteSpaceChar (c : Char) : Bool :=
  let n := c.toNat
  n == 0x9 || n == 0xA || n == 0xB || n == 0xC || n == 0xD || n == 0x20 || n == 0xA0 ||
  n == 0x1680 || (0x2000 ≤ n && n ≤ 0x200A) || n == 0x2028 || n == 0x2029 || n == 0x202F ||
  n == 0x205F || n == 0x3000 || n == 0xFEFF

/-- Value of a character as a digit (`0-9`, `a-z`, `A-Z`), if it is one. -/
def digitValue (c : Char) : Option Nat :=
  let n := c.toNat
  if 48 ≤ n ∧ n ≤ 57 then some (n - 48)
  else if 97 ≤ n ∧ n ≤ 122 then some (n - 87)
  else if 65 ≤ n ∧ n ≤ 90 then some (n - 55)
  else none

/-- The longest prefix of radix-`R` digits, as digit values. -/
def takeDigits (R : Nat) : List Char → List Nat
  | [] => []
  | c :: cs =>
    match digitValue c with
    | some d => if d < R then d :: takeDigits R cs else []
    | none => []

/-- The number written by a list of digit values, most significant first. -/
def digitsValue (R : Nat) (ds : List Nat) : Nat :=
  ds.foldl (fun acc d => acc * R + d) 0

/-- The mathematical integer `parseInt(string)` reads when it is called with
no radix argument: leading white space is skipped, one sign is read, a
`0x`/`0X` prefix selects radix 16, and the longest run of digits is the value;
with no digit there is none. -/
def mathInt (s : String) : Option Int :=
  let S := s.data.dropWhile isStrWhiteSpaceChar
  let sign : Int := if S.head? = some '-' then -1 else 1
  let S := if S.head? = some '+' ∨ S.head? = some '-' then S.tail else S
  let RS : Nat × List Char :=
    match S with
    | '0' :: 'x' :: r => (16, r)
    | '0' :: 'X' :: r => (16, r)
    | _ => (10, S)
  let Z := takeDigits RS.1 RS.2
  if Z = [] then none else some (sign * (digitsValue RS.1 Z : Int))

/-- The built-in `parseInt(string)`: `NaN` when no integer can be read,
otherwise the Number value of the integer read. (For more than 20 significant
decimal digits ECMAScript lets an engine replace the later digits by zeros
before converting; the nearest binary64 number is what is modelled.) -/
def parseInt (s : String) : JSNumber :=
  match mathInt s with
  | none => .nan
  | some n => numberOfInt n

/-- The argument `parseInt` receives from `getAttribute`: the attribute value,
or `null` (which `parseInt` converts to the string `"null"`) when the
attribute is absent. -/
def attrToString : Option String → String
  | none => "null"
  | some s => s

/-- JavaScript truthiness of a number: `NaN` and `0` are falsy. -/
def truthy : JSNumber → Bool
  | .int n => n != 0
  | .infinity _ => true
  | .nan => false

/-- Whether the right operand of
`parseInt(getAttribute('data-target')) || parseInt(textContent)` is evaluated,
that is, whether the element text is parsed as the target. -/
def textParsed (dataTarget : Option String) : Bool :=
  !truthy (parseInt (attrToString dataTarget))

/-- Source: `const target = parseInt(numberElement.getAttribute('data-target')) ||
parseInt(numberElement.textContent);` -/
def counterTarget (dataTarget : Option String) (textContent : String) : JSNumber :=
  if truthy (parseInt (attrToString dataTarget)) then parseInt (attrToString dataTarget)
  else parseInt textContent

/-- Digits, least significant first, with a comma after every third one that
is followed by a further digit. -/
def groupDigits : Nat → List Char → List Char
  | _, [] => []
  | 0, c :: cs => ',' :: c :: groupDigits 2 cs
  | k + 1, c :: cs => c :: groupDigits k cs

/-- Source: `Number.prototype.toLocaleString()` of an integer in the `en-US` locale:
decimal digits in groups of three separated by commas. -/
def toLocaleString (n : Int) : String :=
  String.mk ((if n < 0 then ['-'] else []) ++
    (groupDigits 3 (Nat.toDigits 10 n.natAbs).reverse).reverse)

/-- What one run of `updateCounter` leaves behind: the number whose rendering
is the final `numberElement.textContent`, and whether another animation frame
was requested. -/
structure CounterFrame where
  shown : Int
  requested : Bool
deriving DecidableEq, Repr

/-- The text of the number element after the frame. -/
def CounterFrame.textContent (f : CounterFrame) : String := toLocaleString f.shown

/-- Source: `const progress = Math.min(elapsed / duration, 1);` with
`const elapsed = currentTime - start;` -/
def progress (start currentTime : ℚ) : ℚ :=
  let elapsed := currentTime - start
  min (elapsed / duration) 1

/-- Source: `const easeOutQuart = 1 - Math.pow(1 - progress, 4);` -/
def easeOutQuart (progress : ℚ) : ℚ := 1 - (1 - progress) ^ 4

/-- Source: `function updateCounter(currentTime)` for an integer `target` and the
`start` time captured by `animateCounter`, in exact arithmetic; see
`updateCounter64` for the same computation with every operation rounded. -/
def updateCounter (target : Int) (start currentTime : ℚ) : CounterFrame :=
  let currentValue : Int :=
    ⌊startValue + ((target : ℚ) - startValue) * easeOutQuart (progress start currentTime)⌋
  if progress start currentTime < 1 then
    { shown := currentValue, requested := true }
  else
    { shown := target, requested := false }

/-- The frame value in the words of the specification:
`floor(target * (1 - (1 - t)^4))` with `t = clamp(elapsed / 2000, 0, 1)`. -/
def specFrameValue (target : Int) (elapsed : ℚ) : Int :=
  let t := max 0 (min (elapsed / 2000) 1)
  ⌊(target : ℚ) * (1 - (1 - t) ^ 4)⌋

/-- The values displayed by an animation whose frame callbacks receive the
given timestamps: frames are delivered only while one is requested. -/
def runFrames (target : Int) (start : ℚ) : List ℚ → List Int
  | [] => []
  | t :: ts =>
    (updateCounter target start t).shown ::
      (if (updateCounter target start t).requested then runFrames target start ts else [])

/-! ### The counter frame in binary64 arithmetic -/

/-- Source: `const progress = Math.min(elapsed / duration, 1);` with
`const elapsed = currentTime - start;`, each operation rounded to binary64. -/
def progress64 (start currentTime : ℚ) : ℚ :=
  let elapsed := round64 (currentTime - start)
  min (round64 (elapsed / duration)) 1

/-- Source: `const easeOutQuart = 1 - Math.pow(1 - progress, 4);` in binary64.
The function `pow4` is `x => Math.pow(x, 4)` of the engine: ECMAScript only
asks for an implementation-approximated value, and engines differ in the last
bit (`Math.pow(0.9, 4)` is `0.6561` correctly rounded and
`0.6561000000000001` by repeated multiplication). -/
def easeOutQuart64 (pow4 : ℚ → ℚ) (progress : ℚ) : ℚ :=
  round64 (1 - pow4 (round64 (1 - progress)))

/-- Source: `function updateCounter(currentTime)` in binary64 arithmetic, for
an integer `target` that is a binary64 number. -/
def updateCounter64 (pow4 : ℚ → ℚ) (target : Int) (start currentTime : ℚ) : CounterFrame :=
  let currentValue : Int :=
    ⌊round64 (startValue +
      round64 (round64 ((target : ℚ) - startValue) *
        easeOutQuart64 pow4 (progress64 start currentTime)))⌋
  if progress64 start currentTime < 1 then
    { shown := currentValue, requested := true }
  else
    { shown := target, requested := false }

/-- The values displayed by an animation run in binary64 arithmetic whose frame
callbacks receive the given timestamps. -/
def runFrames64 (pow4 : ℚ → ℚ) (target : Int) (start : ℚ) : List ℚ → List Int
  | [] => []
  | t :: ts =>
    (updateCounter64 pow4 target start t).shown ::
      (if (updateCounter64 pow4 target start t).requested then
        runFrames64 pow4 target start ts
      else [])

/-- The frame value in the words of the specification,
`floor(target * (1 - (1 - t)^4))` with `t = clamp(elapsed / 2000, 0, 1)`, each
operation rounded to binary64. -/
def specFrameValue64 (pow4 : ℚ → ℚ) (target : Int) (elapsed : ℚ) : Int :=
  let t := max 0 (min (round64 (elapsed / 2000)) 1)
  ⌊round64 ((target : ℚ) * round64 (1 - pow4 (round64 (1 - t))))⌋

/-- A `Math.pow(x, 4)` that returns the correctly rounded fourth power. -/
def pow4Rounded (x : ℚ) : ℚ := round64 (x ^ 4)

/-- A `Math.pow(x, 4)` that multiplies three times, rounding each product. -/
def pow4Product (x : ℚ) : ℚ := round64 (round64 (round64 (x * x) * x) * x)

/-! ## Class lists -/

/-- The class names of an element (`element.classList`). -/
abbrev ClassList := List String

/-- Source: `classList.contains(c)` -/
def ClassList.contains (cl : ClassList) (c : String) : Bool := decide (c ∈ cl)

/-- Source: `classList.add(c)` -/
def ClassList.add (cl : ClassList) (c : String) : ClassList :=
  if c ∈ cl then cl else cl ++ [c]

/-- Source: `classList.remove(c)` -/
def ClassList.remove (cl : ClassList) (c : String) : ClassList :=
  cl.filter (fun x => decide (x ≠ c))

/-- Source: `classList.toggle(c)` -/
def ClassList.toggle (cl : ClassList) (c : String) : ClassList :=
  if c ∈ cl then ClassList.remove cl c else ClassList.add cl c

/-- Whether item `i` of a node list carries the class `active`. -/
def isActive (items : List ClassList) (i : Nat) : Bool :=
  ClassList.contains (items.getD i []) "active"

/-! ## Cycling text (`initCyclingText`, lines 263-285) -/

/-- The closure state of `initCyclingText`: the class lists of the
`.cycle-item` elements, in document order, and `currentIndex`. -/
structure Cycler where
  cyclingItems : List ClassList
  currentIndex : Nat
deriving DecidableEq, Repr

/-- The closure state when `initCyclingText` has captured a non-empty node
list: `let currentIndex = 0;`. -/
def Cycler.start (cyclingItems : List ClassList) : Cycler :=
  { cyclingItems := cyclingItems, currentIndex := 0 }

/-- Source: `function cycleText()`: one tick, run first by the 2000 ms timeout and
then by every firing of the 3000 ms interval. -/
def cycleText (s : Cycler) : Cycler :=
  let cleared := s.cyclingItems.map (fun item => ClassList.remove item "active")
  { cyclingItems := cleared.modify (fun item => ClassList.add item "active") s.currentIndex
    currentIndex := (s.currentIndex + 1) % s.cyclingItems.length }

/-- The cycler after `k` ticks: the 2000 ms timeout runs `cycleText` once to
activate element 0 and starts the interval, and each of the `k` firings of the
3000 ms interval runs it again. -/
def afterTicks (cyclingItems : List ClassList) (k : Nat) : Cycler :=
  cycleText^[k] (cycleText (Cycler.start cyclingItems))

/-! ## FAQ accordion (`initFAQAccordion`, lines 353-379) -/

/-- The click listener of the `.faq-question` header of item number `item`,
acting on the class lists of the `.faq-item` elements. -/
def faqClick (faqItems : List ClassList) (item : Nat) : List ClassList :=
  let wasActive := ClassList.contains (faqItems.getD item []) "active"
  let others := faqItems.mapIdx (fun other otherItem =>
    if other ≠ item then ClassList.remove otherItem "active" else otherItem)
  if wasActive then
    others.modify (fun it => ClassList.remove it "active") item
  else
    others.modify (fun it => ClassList.add it "active") item

/-! ## Mobile menu (`initMobileMenu`, lines 449-486) -/

/-- The three elements the menu listeners touch: the `.nav-links` panel, the
`.mobile-menu-toggle` control and the first `i` element inside the toggle (if
there is one). -/
structure Menu where
  navLinks : ClassList
  mobileToggle : ClassList
  icon : Option ClassList
deriving DecidableEq, Repr

/-- The click listener of the toggle control. -/
def toggleClick (m : Menu) : Menu :=
  { navLinks := ClassList.toggle m.navLinks "mobile-active"
    mobileToggle := ClassList.toggle m.mobileToggle "active"
    icon := m.icon.map (fun icon =>
      if ClassList.contains icon "fa-bars" then
        ClassList.add (ClassList.remove icon "fa-bars") "fa-times"
      else
        ClassList.add (ClassList.remove icon "fa-times") "fa-bars") }

/-- The click listener of every `.nav-links a` link. -/
def linkClick (m : Menu) : Menu :=
  { navLinks := ClassList.remove m.navLinks "mobile-active"
    mobileToggle := ClassList.remove m.mobileToggle "active"
    icon := m.icon.map (fun icon =>
      ClassList.add (ClassList.remove icon "fa-times") "fa-bars") }

/-- The events of the mobile menu. -/
inductive MenuEvent where
  | toggle
  | link
deriving DecidableEq, Repr

/-- The listener run by an event. -/
def menuStep (m : Menu) : MenuEvent → Menu
  | .toggle => toggleClick m
  | .link => linkClick m

/-- The menu is open when the panel carries `mobile-active`. -/
def Menu.isOpen (m : Menu) : Bool := ClassList.contains m.navLinks "mobile-active"

/-- The closed state: panel without `mobile-active`, toggle without `active`,
icon carrying `fa-bars` and not `fa-times`. -/
def Menu.closed (m : Menu) : Prop :=
  ClassList.contains m.navLinks "mobile-active" = false ∧
  ClassList.contains m.mobileToggle "active" = false ∧
  ∃ icon, m.icon = some icon ∧ ClassList.contains icon "fa-bars" = true ∧
    ClassList.contains icon "fa-times" = false

/-- A closed menu as a page would mark it up. -/
def closedMenu : Menu :=
  { navLinks := ["nav-links"]
    mobileToggle := ["mobile-menu-toggle"]
    icon := some ["fas", "fa-bars"] }

/-- The three states are in step: the toggle has `active` and the icon carries
`fa-times` exactly when the panel has `mobile-active`, and the icon carries
`fa-bars` exactly when it does not. -/
def Menu.inStep (m : Menu) : Prop :=
  ClassList.contains m.mobileToggle "active" = m.isOpen ∧
  ∃ icon, m.icon = some icon ∧ ClassList.contains icon "fa-times" = m.isOpen ∧
    ClassList.contains icon "fa-bars" = !m.isOpen

/-! ## Project filtering (`initProjectFiltering`, lines 385-412) -/

/-- A `.filter-btn` element: its `data-filter` attribute (absent: `none`) and
its class list. -/
structure FilterButton where
  dataFilter : Option String
  classList : ClassList
deriving DecidableEq, Repr

/-- A `.project-card` element: its `data-category` attribute (absent: `none`)
and the two inline style properties the listener writes. -/
structure ProjectCard where
  dataCategory : Option String
  display : String
  animation : String
deriving DecidableEq, Repr

/-- The node lists captured by `initProjectFiltering`. -/
structure FilterState where
  filterButtons : List FilterButton
  projectCards : List ProjectCard
deriving DecidableEq, Repr

/-- Source: `String.prototype.includes(searchString)`: the search string occurs
somewhere in the string as a contiguous run of characters. -/
def includes (s searchString : String) : Bool :=
  decide (searchString.data <:+: s.data)

/-- The body of `projectCards.forEach(card => ...)` for one card; `none` when
`categories.includes` is called on `null` and throws a `TypeError`. -/
def filterCard (filter : Option String) (card : ProjectCard) : Option ProjectCard :=
  if filter = some "all" then
    some { card with display := "block", animation := "fadeInUp 0.5s ease forwards" }
  else
    match card.dataCategory with
    | none => none
    | some categories =>
      if includes categories (attrToString filter) then
        some { card with display := "block", animation := "fadeInUp 0.5s ease forwards" }
      else
        some { card with display := "none" }

/-- Source: `projectCards.forEach(card => ...)`; `none` when a card makes the loop
throw. -/
def filterCards (filter : Option String) : List ProjectCard → Option (List ProjectCard)
  | [] => some []
  | card :: rest =>
    match filterCard filter card with
    | none => none
    | some c =>
      match filterCards filter rest with
      | none => none
      | some r => some (c :: r)

/-- The click listener of filter button number `button`; `none` when it
throws. -/
def filterClick (s : FilterState) (button : Nat) : Option FilterState :=
  match s.filterButtons[button]? with
  | none => some s
  | some b =>
    let filter := b.dataFilter
    let cleared := s.filterButtons.map
      (fun btn => { btn with classList := ClassList.remove btn.classList "active" })
    let buttons := cleared.modify
      (fun btn => { btn with classList := ClassList.add btn.classList "active" }) button
    match filterCards filter s.projectCards with
    | none => none
    | some cards => some { filterButtons := buttons, projectCards := cards }

/-- A character that separates two tags in a `data-category` value. -/
def isTagSeparator (c : Char) : Bool :=
  c == ' ' || c == '\t' || c == '\n' || c == '\r' || c == ','

/-- Splits at tag separators; `cur` is the tag being read. -/
def categoryTagsAux : List Char → List Char → List (List Char)
  | [], cur => if cur = [] then [] else [cur]
  | c :: cs, cur =>
    if isTagSeparator c then
      (if cur = [] then categoryTagsAux cs [] else cur :: categoryTagsAux cs [])
    else categoryTagsAux cs (cur ++ [c])

/-- Modelled from the spec: the set of category tags a card declares. The page
markup is not among the sources; the tags are taken to be the maximal runs of
characters of the `data-category` value between white space or commas. -/
def categoryTags (categories : String) : List String :=
  (categoryTagsAux categories.data []).map String.mk

/-! ## Documents and selectors -/

/-- An element of the page. `parent` is the position of the enclosing element
in the document list; `id` is empty when the element has no id. -/
structure Element where
  tag : String
  id : String
  classList : ClassList
  attrs : List (String × String)
  textContent : String
  parent : Option Nat
deriving DecidableEq, Repr

/-- The selectors the script uses: `.c`, `#i`, `t`, `t[a]`, `t[a^="v"]` and
`.c t`. A selector list (`a, b, ...`) is a `List Selector`. -/
inductive Selector where
  | cls (name : String)
  | ident (id : String)
  | tag (name : String)
  | tagAttr (tag attr : String)
  | tagAttrPrefix (tag attr value : String)
  | clsDescendantTag (cls tag : String)
deriving DecidableEq, Repr

/-- Source: `element.getAttribute(name)`; `none` is `null`. -/
def Element.getAttribute (e : Element) (name : String) : Option String :=
  e.attrs.lookup name

/-- Whether some ancestor, starting at `parent`, carries the class. -/
def hasAncestorWithClass (doc : List Element) (c : String) : Nat → Option Nat → Bool
  | 0, _ => false
  | _ + 1, none => false
  | fuel + 1, some p =>
    match doc[p]? with
    | none => false
    | some e => ClassList.contains e.classList c || hasAncestorWithClass doc c fuel e.parent

/-- Whether `root` is an ancestor, starting at `parent`. -/
def hasAncestor (doc : List Element) (root : Nat) : Nat → Option Nat → Bool
  | 0, _ => false
  | _ + 1, none => false
  | fuel + 1, some p =>
    p == root ||
    match doc[p]? with
    | none => false
    | some e => hasAncestor doc root fuel e.parent

/-- Source: `element.matches(selector)` -/
def Element.matchesSelector (doc : List Element) (e : Element) : Selector → Bool
  | .cls c => ClassList.contains e.classList c
  | .ident i => e.id == i
  | .tag t => e.tag == t
  | .tagAttr t a => e.tag == t && (e.getAttribute a).isSome
  | .tagAttrPrefix t a v =>
    e.tag == t &&
    match e.getAttribute a with
    | some x => v.data.isPrefixOf x.data
    | none => false
  | .clsDescendantTag c t => e.tag == t && hasAncestorWithClass doc c doc.length e.parent

/-- Source: `function getAllElements(selector)`: `document.querySelectorAll`, the
positions of the matching elements in document order. -/
def getAllElements (doc : List Element) (selector : List Selector) : List Nat :=
  (List.range doc.length).filter (fun i =>
    match doc[i]? with
    | some e => selector.any (fun sel => e.matchesSelector doc sel)
    | none => false)

/-- Source: `function getElement(selector)`: `document.querySelector`, the first match
or `null`. -/
def getElement (doc : List Element) (selector : List Selector) : Option Nat :=
  (getAllElements doc selector).head?

/-- Source: `element.querySelector(selector)`: the first descendant of `root` that
matches. -/
def querySelectorIn (doc : List Element) (root : Nat) (sel : Selector) : Option Nat :=
  ((List.range doc.length).filter (fun i =>
    match doc[i]? with
    | some e => e.matchesSelector doc sel && hasAncestor doc root doc.length e.parent
    | none => false)).head?

/-! ## The page: document, registered callbacks and calls into libraries -/

/-- What a listener is attached to. -/
inductive EventTarget where
  | window
  | document
  | element (i : Nat)
deriving DecidableEq, Repr

/-- The listener functions of the script, with the nodes they close over. -/
inductive Listener where
  | pageReady
  | load
  | scroll (navbar : Nat)
  | error
  | faqClick (item : Nat)
  | filterClick (button : Nat)
  | submit (contactForm : Nat)
  | toggleClick (mobileToggle navLinks : Nat)
  | linkClick (mobileToggle navLinks : Nat)
  | anchorClick (link : Nat)
deriving DecidableEq, Repr

/-- The two intersection observers of the script. -/
inductive Observer where
  | fade
  | lazyImage
deriving DecidableEq, Repr

/-- Callbacks handed to a timer or to `requestAnimationFrame`. The `target` of
`updateCounter` is recorded when it is an integer (`none` for `NaN` and the
infinities). -/
inductive Callback where
  | startCycling (cyclingItems : List Nat)
  | updateCounter (numberElement : Nat) (target : Option Int)
deriving DecidableEq, Repr

/-- Everything a run registers or calls outside the document. -/
inductive Effect where
  | addEventListener (target : EventTarget) (type : String) (listener : Listener)
  | observe (observer : Observer) (element : Nat)
  | setTimeout (callback : Callback) (ms : Nat)
  | requestAnimationFrame (callback : Callback)
  | particlesJS (id : String)
  | newSwiper (selector : String)
  | gsapFrom (targets : List Nat)
  | consoleLog (message : String)
  | exportFunctions
deriving DecidableEq, Repr

/-- The state of the page. Elements created by the script are appended at the
end of `doc`; no selector of the script matches them, so the matches of every
query stay in document order. -/
structure Page where
  doc : List Element
  effects : List Effect
deriving DecidableEq, Repr

/-- The optional globals the script tests for. -/
structure Env where
  hasIntersectionObserver : Bool
  hasParticlesJS : Bool
  hasSwiper : Bool
  hasGsap : Bool
deriving DecidableEq, Repr

/-- Exceptions the script can raise. -/
inductive JSError where
  | referenceError (name : String)
  | typeError (message : String)
deriving DecidableEq, Repr

/-- The outcome of running a piece of the script: it returns, or it throws
with the page as it was when the exception was raised. -/
inductive Result where
  | ok (page : Page)
  | thrown (error : JSError) (page : Page)
deriving DecidableEq, Repr

/-- Sequencing: a thrown exception skips the rest. -/
def Result.andThen (r : Result) (f : Page → Result) : Result :=
  match r with
  | .ok p => f p
  | .thrown e p => .thrown e p

/-- The page an outcome leaves behind. -/
def Result.page : Result → Page
  | .ok p => p
  | .thrown _ p => p

/-- The exception an outcome carries, if it threw. -/
def Result.error : Result → Option JSError
  | .ok _ => none
  | .thrown e _ => some e

/-- Records an effect. -/
def Page.log (p : Page) (e : Effect) : Page :=
  { p with effects := p.effects ++ [e] }

/-- Applies a change to the class list of element `i`. -/
def Page.updateClassList (p : Page) (i : Nat) (f : ClassList → ClassList) : Page :=
  { p with doc := p.doc.modify (fun e => { e with classList := f e.classList }) i }

/-- The class list of element `i` (empty when there is no such element). -/
def Page.classListOf (p : Page) (i : Nat) : ClassList :=
  match p.doc[i]? with
  | some e => e.classList
  | none => []

/-- Source: `document.head.appendChild(element)`; `document.head` is the first `head`
element, and the call throws a `TypeError` when there is none. -/
def Page.appendToHead (p : Page) (e : Element) : Result :=
  match getElement p.doc [.tag "head"] with
  | none => .thrown (.typeError "document.head is null") p
  | some head => .ok { p with doc := p.doc ++ [{ e with parent := some head }] }

/-! ## The initializers -/

/-- Source: `initLoadingAnimation` (lines 520-525). -/
def initLoadingAnimation (p : Page) : Result :=
  .ok (p.log (.addEventListener .window "load" .load))

/-- Source: `initNavbarScrollEffect` (lines 45-75). -/
def initNavbarScrollEffect (p : Page) : Result :=
  match getElement p.doc [.cls "main-nav"] with
  | none => .ok p
  | some navbar => .ok (p.log (.addEventListener .window "scroll" (.scroll navbar)))

/-- The selector list of `initScrollAnimations`. -/
def fadeSelector : List Selector :=
  [.cls "fade-in-element", .cls "service-card", .cls "project-card", .cls "team-card",
   .cls "value-card", .cls "counter-item", .cls "timeline-item"]

/-- Source: `initScrollAnimations` (lines 81-111). `new IntersectionObserver` throws a
`ReferenceError` where the constructor is not defined. -/
def initScrollAnimations (env : Env) (p : Page) : Result :=
  let fadeElements := getAllElements p.doc fadeSelector
  if fadeElements.length = 0 then .ok p
  else if !env.hasIntersectionObserver then
    .thrown (.referenceError "IntersectionObserver") p
  else
    .ok (fadeElements.foldl (fun p element =>
      let p :=
        if !ClassList.contains (p.classListOf element) "fade-in-element" then
          p.updateClassList element (fun cl => ClassList.add cl "fade-in-element")
        else p
      p.log (.observe .fade element)) p)

/-- Source: `animateCounter(counterElement)` (lines 229-257) up to the first animation
frame: the target is read and `updateCounter` is handed to
`requestAnimationFrame`. -/
def animateCounter (counterElement : Nat) (p : Page) : Page :=
  match querySelectorIn p.doc counterElement (.cls "counter-number") with
  | none => p
  | some numberElement =>
    match p.doc[numberElement]? with
    | none => p
    | some e =>
      p.log (.requestAnimationFrame (.updateCounter numberElement
        (counterTarget (e.getAttribute "data-target") e.textContent).toInt?))

/-- An `IntersectionObserverEntry`. -/
structure IntersectionEntry where
  target : Nat
  isIntersecting : Bool
deriving DecidableEq, Repr

/-- The callback of the observer created by `initScrollAnimations`
(lines 91-102), run on one batch of entries. -/
def fadeObserverCallback (p : Page) (entries : List IntersectionEntry) : Page :=
  entries.foldl (fun p entry =>
    if entry.isIntersecting then
      let p := p.updateClassList entry.target (fun cl => ClassList.add cl "visible")
      if ClassList.contains (p.classListOf entry.target) "counter-item" then
        animateCounter entry.target p
      else p
    else p) p

/-- Source: `initParticles` (lines 117-223). -/
def initParticles (env : Env) (p : Page) : Result :=
  match getElement p.doc [.ident "particles-js"] with
  | none => .ok p
  | some _ => if !env.hasParticlesJS then .ok p else .ok (p.log (.particlesJS "particles-js"))

/-- Source: `initCyclingText` (lines 263-285). -/
def initCyclingText (p : Page) : Result :=
  let cyclingItems := getAllElements p.doc [.cls "cycle-item"]
  if cyclingItems.length = 0 then .ok p
  else .ok (p.log (.setTimeout (.startCycling cyclingItems) 2000))

/-- Source: `initSwiperCarousels` (lines 291-347). -/
def initSwiperCarousels (env : Env) (p : Page) : Result :=
  let p :=
    if (getElement p.doc [.cls "projects-swiper"]).isSome && env.hasSwiper then
      p.log (.newSwiper ".projects-swiper")
    else p
  let p :=
    if (getElement p.doc [.cls "testimonials-swiper"]).isSome && env.hasSwiper then
      p.log (.newSwiper ".testimonials-swiper")
    else p
  .ok p

/-- Source: `initFAQAccordion` (lines 353-379). -/
def initFAQAccordion (p : Page) : Result :=
  let faqItems := getAllElements p.doc [.cls "faq-item"]
  if faqItems.length = 0 then .ok p
  else
    .ok (faqItems.foldl (fun p item =>
      match querySelectorIn p.doc item (.cls "faq-question") with
      | none => p
      | some question => p.log (.addEventListener (.element question) "click" (.faqClick item))) p)

/-- Source: `initProjectFiltering` (lines 385-412). -/
def initProjectFiltering (p : Page) : Result :=
  let filterButtons := getAllElements p.doc [.cls "filter-btn"]
  let projectCards := getAllElements p.doc [.cls "project-card"]
  if filterButtons.length = 0 || projectCards.length = 0 then .ok p
  else
    .ok (filterButtons.foldl (fun p button =>
      p.log (.addEventListener (.element button) "click" (.filterClick button))) p)

/-- Source: `initContactForm` (lines 418-443). -/
def initContactForm (p : Page) : Result :=
  match getElement p.doc [.ident "contactForm"] with
  | none => .ok p
  | some contactForm =>
    .ok (p.log (.addEventListener (.element contactForm) "submit" (.submit contactForm)))

/-- Source: `initMobileMenu` (lines 449-486). -/
def initMobileMenu (p : Page) : Result :=
  match getElement p.doc [.cls "mobile-menu-toggle"], getElement p.doc [.cls "nav-links"] with
  | some mobileToggle, some navLinks =>
    let p := p.log (.addEventListener (.element mobileToggle) "click"
      (.toggleClick mobileToggle navLinks))
    let navLinksItems := getAllElements p.doc [.clsDescendantTag "nav-links" "a"]
    .ok (navLinksItems.foldl (fun p link =>
      p.log (.addEventListener (.element link) "click" (.linkClick mobileToggle navLinks))) p)
  | _, _ => .ok p

/-- Source: `initSmoothScrolling` (lines 492-514). -/
def initSmoothScrolling (p : Page) : Result :=
  let anchorLinks := getAllElements p.doc [.tagAttrPrefix "a" "href" "#"]
  .ok (anchorLinks.foldl (fun p link =>
    p.log (.addEventListener (.element link) "click" (.anchorClick link))) p)

/-- Source: `initGSAPAnimations` (lines 531-560). -/
def initGSAPAnimations (env : Env) (p : Page) : Result :=
  if !env.hasGsap then .ok p
  else
    let p :=
      match getElement p.doc [.cls "hero-title"] with
      | some heroTitle => p.log (.gsapFrom [heroTitle])
      | none => p
    let serviceCards := getAllElements p.doc [.cls "service-card"]
    let p := if serviceCards.length > 0 then p.log (.gsapFrom serviceCards) else p
    .ok p

/-- Source: `const criticalResources` of `initPerformanceOptimizations`. -/
def criticalResources : List String :=
  ["https://cdnjs.cloudflare.com/ajax/libs/font-awesome/6.4.0/css/all.min.css"]

/-- The `link` element created for a critical resource. -/
def preloadLink (resource : String) : Element :=
  { tag := "link", id := "", classList := [],
    attrs := [("rel", "preload"), ("href", resource), ("as", "style")],
    textContent := "", parent := none }

/-- Source: `initPerformanceOptimizations` (lines 566-596). -/
def initPerformanceOptimizations (env : Env) (p : Page) : Result :=
  let images := getAllElements p.doc [.tagAttr "img" "data-src"]
  let observed : Result :=
    if images.length > 0 then
      if !env.hasIntersectionObserver then
        .thrown (.referenceError "IntersectionObserver") p
      else .ok (images.foldl (fun p img => p.log (.observe .lazyImage img)) p)
    else .ok p
  criticalResources.foldl (fun r resource =>
    r.andThen (fun p => p.appendToHead (preloadLink resource))) observed

/-- The `DOMContentLoaded` listener (lines 602-621). -/
def pageReady (env : Env) (p : Page) : Result :=
  let steps : List (Page → Result) :=
    [initLoadingAnimation, initNavbarScrollEffect, initScrollAnimations env, initParticles env,
     initCyclingText, initSwiperCarousels env, initFAQAccordion, initProjectFiltering,
     initContactForm, initMobileMenu, initSmoothScrolling, initGSAPAnimations env,
     initPerformanceOptimizations env]
  (steps.foldl Result.andThen
    (.ok (p.log (.consoleLog "7enawy Solutions - Initializing website interactivity...")))).andThen
    (fun p => .ok (p.log
      (.consoleLog "7enawy Solutions - All components initialized successfully!")))

/-- Source: `const mobileMenuStyles` (lines 628-665), line by line. -/
def mobileMenuStyles : String :=
  String.intercalate "\n"
    ["",
     "    @media (max-width: 768px) \x7b",
     "        .nav-links \x7b",
     "            position: fixed;",
     "            top: 100%;",
     "            left: 0;",
     "            width: 100%;",
     "            background: var(--card-bg);",
     "            backdrop-filter: blur(10px);",
     "            flex-direction: column;",
     "            padding: 2rem;",
     "            transform: translateY(-100%);",
     "            opacity: 0;",
     "            visibility: hidden;",
     "            transition: all 0.3s ease;",
     "        \x7d",
     "        ",
     "        .nav-links.mobile-active \x7b",
     "            transform: translateY(0);",
     "            opacity: 1;",
     "            visibility: visible;",
     "        \x7d",
     "        ",
     "        .mobile-menu-toggle.active \x7b",
     "            transform: rotate(90deg);",
     "        \x7d",
     "    \x7d",
     "    ",
     "    .scrolled \x7b",
     "        background: rgba(10, 25, 47, 0.95) !important;",
     "        box-shadow: 0 2px 20px rgba(100, 255, 218, 0.1);",
     "    \x7d",
     "    ",
     "    .loaded .fade-in-element \x7b",
     "        transform: translateY(0);",
     "        opacity: 1;",
     "    \x7d",
     ""]

/-- The `style` element injected by the top-level code. -/
def styleSheet : Element :=
  { tag := "style", id := "dynamic-styles", classList := [], attrs := [],
    textContent := mobileMenuStyles, parent := none }

/-- The top-level statements of the script, in source order: the
`DOMContentLoaded` registration (line 602), the style injection (668-673), the
`error` listener (679-681), the fallback for browsers without
`IntersectionObserver` (684-688) and the export (691-697). -/
def topLevel (env : Env) (p : Page) : Result :=
  let p := p.log (.addEventListener .document "DOMContentLoaded" .pageReady)
  let injected : Result :=
    if (getElement p.doc [.ident "dynamic-styles"]).isNone then p.appendToHead styleSheet
    else .ok p
  injected.andThen (fun p =>
    let p := p.log (.addEventListener .window "error" .error)
    let p :=
      if !env.hasIntersectionObserver then
        let fallbackElements := getAllElements p.doc [.cls "fade-in-element"]
        fallbackElements.foldl (fun p el =>
          p.updateClassList el (fun cl => ClassList.add cl "visible")) p
      else p
    .ok (p.log .exportFunctions))

/-- The page after the script has been loaded on a parsed document and the
`DOMContentLoaded` listener has run. The listener is registered by the first
top-level statement, so it runs even if a later top-level statement throws. -/
def runScript (env : Env) (doc : List Element) : Page :=
  (pageReady env (topLevel env { doc := doc, effects := [] }).page).page

/-- The initializers called by the `DOMContentLoaded` listener. -/
inductive Initializer where
  | loadingAnimation
  | navbarScrollEffect
  | scrollAnimations
  | particles
  | cyclingText
  | swiperCarousels
  | faqAccordion
  | projectFiltering
  | contactForm
  | mobileMenu
  | smoothScrolling
  | gsapAnimations
  | performanceOptimizations
deriving DecidableEq, Repr

/-- The function an initializer names. -/
def Initializer.run (env : Env) : Initializer → Page → Result
  | .loadingAnimation => initLoadingAnimation
  | .navbarScrollEffect => initNavbarScrollEffect
  | .scrollAnimations => initScrollAnimations env
  | .particles => initParticles env
  | .cyclingText => initCyclingText
  | .swiperCarousels => initSwiperCarousels env
  | .faqAccordion => initFAQAccordion
  | .projectFiltering => initProjectFiltering
  | .contactForm => initContactForm
  | .mobileMenu => initMobileMenu
  | .smoothScrolling => initSmoothScrolling
  | .gsapAnimations => initGSAPAnimations env
  | .performanceOptimizations => initPerformanceOptimizations env

/-- The selectors an initializer hands to `getElement` or `getAllElements`. -/
def Initializer.selects : Initializer → List Selector
  | .loadingAnimation => []
  | .navbarScrollEffect => [.cls "main-nav"]
  | .scrollAnimations => fadeSelector
  | .particles => [.ident "particles-js"]
  | .cyclingText => [.cls "cycle-item"]
  | .swiperCarousels => [.cls "projects-swiper", .cls "testimonials-swiper"]
  | .faqAccordion => [.cls "faq-item"]
  | .projectFiltering => [.cls "filter-btn", .cls "project-card"]
  | .contactForm => [.ident "contactForm"]
  | .mobileMenu => [.cls "mobile-menu-toggle", .cls "nav-links", .clsDescendantTag "nav-links" "a"]
  | .smoothScrolling => [.tagAttrPrefix "a" "href" "#"]
  | .gsapAnimations => [.cls "hero-title", .cls "service-card"]
  | .performanceOptimizations => [.tagAttr "img" "data-src"]

/-- A document contains none of the elements an initializer selects. -/
def Initializer.selectsNothing (init : Initializer) (doc : List Element) : Prop :=
  ∀ sel ∈ init.selects, getAllElements doc [sel] = []

/-- A minimal parsed page: `html`, `head`, `body`. -/
def emptyPage : List Element :=
  [{ tag := "html", id := "", classList := [], attrs := [], textContent := "", parent := none },
   { tag := "head", id := "", classList := [], attrs := [], textContent := "", parent := some 0 },
   { tag := "body", id := "", classList := [], attrs := [], textContent := "", parent := some 0 }]

/-- A page whose body holds one service card and one counter item with its
number: `<div class="service-card">`, `<div class="counter-item"><span
class="counter-number" data-target="150">0</span></div>`. -/
def cardPage : List Element :=
  emptyPage ++
  [{ tag := "div", id := "", classList := ["service-card"], attrs := [], textContent := "",
     parent := some 2 },
   { tag := "div", id := "", classList := ["counter-item"], attrs := [], textContent := "",
     parent := some 2 },
   { tag := "span", id := "", classList := ["counter-number"], attrs := [("data-target", "150")],
     textContent := "0", parent := some 4 }]

/-- A browser without `IntersectionObserver` and without the optional
libraries. -/
def legacyBrowser : Env :=
  { hasIntersectionObserver := false, hasParticlesJS := false, hasSwiper := false,
    hasGsap := false }

/-! ## Contact form (`initContactForm`, lines 418-443) -/

/-- The `.submit-btn` element inside the contact form: its label and its
`disabled` flag. -/
structure SubmitButton where
  textContent : String
  disabled : Bool
deriving DecidableEq, Repr

/-- The contact form and what its submit listener leaves behind: the current
and the default values of the form fields, the submit control (if the form has
one), the `originalText` closed over by each timeout that has not fired yet
(oldest first), the alerts shown so far, the number of submit events whose
default action was prevented, and the number of calls of `reset()`. -/
structure ContactForm where
  fields : List String
  defaults : List String
  submitBtn : Option SubmitButton
  pending : List String
  alerts : List String
  defaultPrevented : Nat
  resets : Nat
deriving DecidableEq, Repr

/-- The `submit` listener of the contact form (lines 422-442). -/
def submitHandler (s : ContactForm) : ContactForm :=
  match s.submitBtn with
  | none => { s with defaultPrevented := s.defaultPrevented + 1 }
  | some submitBtn =>
    let originalText := submitBtn.textContent
    { s with
      defaultPrevented := s.defaultPrevented + 1
      submitBtn := some { textContent := "Sending...", disabled := true }
      pending := s.pending ++ [originalText] }

/-- The callback handed to `setTimeout(..., 2000)` (lines 435-440), with the
`originalText` it closes over. -/
def timeoutCallback (originalText : String) (s : ContactForm) : ContactForm :=
  { s with
    alerts := s.alerts ++
      ["Thank you for your message! We will get back to you within 24 hours."]
    fields := s.defaults
    resets := s.resets + 1
    submitBtn := s.submitBtn.map (fun b =>
      { b with textContent := originalText, disabled := false }) }

/-- What can happen to the contact form: the user asks for submission (a click
on the submit control or the Enter key in a field), the oldest pending timeout
fires (all timeouts have the same delay, so they fire in the order they were
set), and the user types into the fields. -/
inductive FormEvent where
  | submit
  | timeout
  | input (values : List String)
deriving DecidableEq, Repr

/-- One event of the contact form. The browser raises no `submit` event while
the submit control is disabled (a disabled button is not clicked and blocks
implicit submission), which is what line 432 relies on; the script itself
never raises one. -/
def formStep (s : ContactForm) : FormEvent → ContactForm
  | .submit =>
    match s.submitBtn with
    | some b => if b.disabled then s else submitHandler s
    | none => submitHandler s
  | .timeout =>
    match s.pending with
    | [] => s
    | originalText :: rest => timeoutCallback originalText { s with pending := rest }
  | .input values => { s with fields := values }

/-- A filled-in contact form whose submit control reads "Send Message". -/
def filledForm : ContactForm :=
  { fields := ["Ann", "ann@example.com", "Hello"]
    defaults := ["", "", ""]
    submitBtn := some { textContent := "Send Message", disabled := false }
    pending := []
    alerts := []
    defaultPrevented := 0
    resets := 0 }

/-! ## Navbar scroll effect (`initNavbarScrollEffect`, lines 45-75) -/

/-- The closure state of `initNavbarScrollEffect` together with what it reads
and writes: the class list of the navbar, `window.scrollY`, `lastScrollY`,
`ticking`, the number of callbacks handed to `requestAnimationFrame` that have
not run yet, and the number of runs of `handleScroll` so far. -/
structure ScrollState where
  navbar : ClassList
  scrollY : ℚ
  lastScrollY : ℚ
  ticking : Bool
  pending : Nat
  handled : Nat
deriving DecidableEq, Repr

/-- The state when `initNavbarScrollEffect` has found the navbar:
`let lastScrollY = window.scrollY;` and `let ticking = false;`. -/
def ScrollState.start (navbar : ClassList) (scrollY : ℚ) : ScrollState :=
  { navbar := navbar, scrollY := scrollY, lastScrollY := scrollY, ticking := false,
    pending := 0, handled := 0 }

/-- Source: `function handleScroll()` (lines 51-62). -/
def handleScroll (s : ScrollState) : ScrollState :=
  let currentScrollY := s.scrollY
  { s with
    navbar :=
      if currentScrollY > 100 then ClassList.add s.navbar "scrolled"
      else ClassList.remove s.navbar "scrolled"
    lastScrollY := currentScrollY
    handled := s.handled + 1 }

/-- The `scroll` listener (lines 66-74). -/
def scrollListener (s : ScrollState) : ScrollState :=
  if !s.ticking then
    { s with pending := s.pending + 1, ticking := true }
  else s

/-- The callback handed to `requestAnimationFrame` (lines 68-71). -/
def frameCallback (s : ScrollState) : ScrollState :=
  { handleScroll s with ticking := false }

/-- An animation frame: every callback requested before the frame is run. -/
def animationFrame (s : ScrollState) : ScrollState :=
  frameCallback^[s.pending] { s with pending := 0 }

/-- What can happen between and at frames: the page is scrolled to an offset,
a `scroll` event is delivered, an animation frame is rendered. -/
inductive ScrollEvent where
  | moveTo (y : ℚ)
  | scroll
  | frame
deriving DecidableEq, Repr

/-- One event of the navbar scroll effect. -/
def scrollStep (s : ScrollState) : ScrollEvent → ScrollState
  | .moveTo y => { s with scrollY := y }
  | .scroll => scrollListener s
  | .frame => animationFrame s

/-- The state after a sequence of events, starting when the initializer has
run on a page scrolled to `scrollY`. -/
def scrollRun (navbar : ClassList) (scrollY : ℚ) (events : List ScrollEvent) : ScrollState :=
  events.foldl scrollStep (ScrollState.start navbar scrollY)

/-- The flag `ticking` is true exactly when one callback is scheduled and not
yet run, and no more than one ever is. -/
def ScrollState.throttled (s : ScrollState) : Prop :=
  (s.ticking = true ∧ s.pending = 1) ∨ (s.ticking = false ∧ s.pending = 0)

/-! ## Theorems -/

theorem easeOutQuart_le_one (p : ℚ) : easeOutQuart p ≤ 1 := by
  unfold easeOutQuart
  have h : 0 ≤ (1 - p) ^ 4 := by positivity
  linarith

theorem progress_le_one (start t : ℚ) : progress start t ≤ 1 := by
  unfold progress
  exact min_le_right _ _

theorem progress_nonneg {start t : ℚ} (h : start ≤ t) : 0 ≤ progress start t := by
  unfold progress duration
  apply le_min
  · apply div_nonneg <;> linarith
  · norm_num

theorem progress_mono (start : ℚ) {t u : ℚ} (h : t ≤ u) : progress start t ≤ progress start u := by
  unfold progress duration
  apply min_le_min_right
  apply div_le_div_of_nonneg_right <;> linarith

theorem easeOutQuart_mono {p q : ℚ} (hq : q ≤ 1) (h : p ≤ q) :
    easeOutQuart p ≤ easeOutQuart q := by
  unfold easeOutQuart
  have h1 : (1 - q) ^ 4 ≤ (1 - p) ^ 4 := pow_le_pow_left₀ (by linarith) (by linarith) 4
  linarith

theorem shown_eq_floor (T : Int) (start t : ℚ) :
    (updateCounter T start t).shown = ⌊(T : ℚ) * easeOutQuart (progress start t)⌋ := by
  unfold updateCounter
  split_ifs with h
  · simp [startValue]
  · have h1 : progress start t = 1 := le_antisymm (progress_le_one start t) (not_lt.mp h)
    simp [h1, easeOutQuart]

theorem shown_le_target {T : Int} (hT : 0 ≤ T) (start t : ℚ) :
    (updateCounter T start t).shown ≤ T := by
  rw [shown_eq_floor]
  have hT' : (0 : ℚ) ≤ T := by exact_mod_cast hT
  have h : (T : ℚ) * easeOutQuart (progress start t) ≤ T := by
    have := mul_le_mul_of_nonneg_left (easeOutQuart_le_one (progress start t)) hT'
    simpa using this
  have h2 : ⌊(T : ℚ) * easeOutQuart (progress start t)⌋ ≤ ⌊(T : ℚ)⌋ := Int.floor_mono h
  simpa using h2

theorem shown_mono {T : Int} (hT : 0 ≤ T) (start : ℚ) {t u : ℚ} (h : t ≤ u) :
    (updateCounter T start t).shown ≤ (updateCounter T start u).shown := by
  rw [shown_eq_floor, shown_eq_floor]
  apply Int.floor_mono
  apply mul_le_mul_of_nonneg_left _ (by exact_mod_cast hT)
  exact easeOutQuart_mono (progress_le_one start u) (progress_mono start h)

theorem mem_runFrames {T : Int} {start : ℚ} {frames : List ℚ} {v : Int}
    (hv : v ∈ runFrames T start frames) :
    ∃ t ∈ frames, v = (updateCounter T start t).shown := by
  induction frames with
  | nil => simp [runFrames] at hv
  | cons t ts ih =>
    simp only [runFrames, List.mem_cons] at hv
    rcases hv with hv | hv
    · exact ⟨t, by simp, hv⟩
    · split_ifs at hv with hr
      · obtain ⟨u, hu, hvu⟩ := ih hv
        exact ⟨u, by simp [hu], hvu⟩
      · simp at hv

theorem shown_nonneg {T : Int} (hT : 0 ≤ T) {start t : ℚ} (h : start ≤ t) :
    0 ≤ (updateCounter T start t).shown := by
  rw [shown_eq_floor]
  apply Int.floor_nonneg.mpr
  apply mul_nonneg (by exact_mod_cast hT)
  have h0 := progress_nonneg h
  have h1 := progress_le_one start t
  unfold easeOutQuart
  have h2 : (1 - progress start t) ^ 4 ≤ 1 := pow_le_one₀ (by linarith) (by linarith)
  linarith

theorem updateCounter_final (T : Int) {start t : ℚ} (h : 1 ≤ (t - start) / 2000) :
    updateCounter T start t = { shown := T, requested := false } := by
  have h1 : progress start t = 1 := by
    unfold progress duration
    exact min_eq_right h
  simp [updateCounter, h1]

theorem runFrames_getLast {T : Int} {start : ℚ} {frames : List ℚ}
    (h : ∃ t ∈ frames, 1 ≤ (t - start) / 2000) :
    (runFrames T start frames).getLast? = some T := by
  induction frames with
  | nil => simp at h
  | cons t ts ih =>
    by_cases ht : 1 ≤ (t - start) / 2000
    · simp [runFrames, updateCounter_final T ht]
    · have hp : progress start t < 1 := by
        unfold progress duration
        exact lt_of_le_of_lt (min_le_left _ _) (not_le.mp ht)
      have hts : ∃ u ∈ ts, 1 ≤ (u - start) / 2000 := by
        obtain ⟨u, hu, hu1⟩ := h
        rcases List.mem_cons.mp hu with rfl | hu
        · exact absurd hu1 ht
        · exact ⟨u, hu, hu1⟩
      have hreq : (updateCounter T start t).requested = true := by
        simp [updateCounter, hp]
      have ih' := ih hts
      simp only [runFrames, hreq, if_true]
      cases hrun : runFrames T start ts with
      | nil => simp [hrun] at ih'
      | cons v vs =>
        rw [hrun] at ih'
        simpa [List.getLast?_cons_cons] using ih'

/-- C1: for a non-negative integer target `T` and frame timestamps that are
non-decreasing and not earlier than the start time, the displayed values are
non-decreasing, lie between 0 and `T`, a frame whose `elapsed / 2000` has
reached 1 displays exactly `T` and requests no further frame, and the run
that contains such a frame ends on `T`. -/
theorem animateCounter_monotone_bounded_exact (T : Int) (hT : 0 ≤ T) (start : ℚ)
    (frames : List ℚ) (hsorted : frames.Pairwise (· ≤ ·)) (hstart : ∀ t ∈ frames, start ≤ t) :
    (runFrames T start frames).Pairwise (· ≤ ·) ∧
    (∀ v ∈ runFrames T start frames, 0 ≤ v ∧ v ≤ T) ∧
    (∀ t ∈ frames, 1 ≤ (t - start) / 2000 →
      (updateCounter T start t).shown = T ∧ (updateCounter T start t).requested = false) ∧
    ((∃ t ∈ frames, 1 ≤ (t - start) / 2000) → (runFrames T start frames).getLast? = some T) := by
  refine ⟨?_, ?_, ?_, runFrames_getLast⟩
  · induction frames with
    | nil => simp [runFrames]
    | cons t ts ih =>
      rw [List.pairwise_cons] at hsorted
      simp only [runFrames]
      rw [List.pairwise_cons]
      constructor
      · intro v hv
        split_ifs at hv with hr
        · obtain ⟨u, hu, rfl⟩ := mem_runFrames hv
          exact shown_mono hT start (hsorted.1 u hu)
        · simp at hv
      · split_ifs with hr
        · exact ih hsorted.2 (fun u hu => hstart u (List.mem_cons_of_mem _ hu))
        · exact List.Pairwise.nil
  · intro v hv
    obtain ⟨u, hu, rfl⟩ := mem_runFrames hv
    exact ⟨shown_nonneg hT (hstart u hu), shown_le_target hT start u⟩
  · intro t _ h1
    rw [updateCounter_final T h1]
    exact ⟨rfl, rfl⟩

theorem animateCounter_monotone_bounded_exact_witness :
    (runFrames 1234 0 [0, 500, 2000]).Pairwise (· ≤ ·) ∧
    (∀ v ∈ runFrames 1234 0 [0, 500, 2000], 0 ≤ v ∧ v ≤ 1234) ∧
    (∀ t ∈ [(0 : ℚ), 500, 2000], 1 ≤ (t - 0) / 2000 →
      (updateCounter 1234 0 t).shown = 1234 ∧ (updateCounter 1234 0 t).requested = false) ∧
    ((∃ t ∈ [(0 : ℚ), 500, 2000], 1 ≤ (t - 0) / 2000) →
      (runFrames 1234 0 [0, 500, 2000]).getLast? = some 1234) :=
  animateCounter_monotone_bounded_exact 1234 (by decide) 0 [0, 500, 2000]
    (by simp; norm_num) (by simp)

theorem roundHalfEven_intCast (m : ℤ) : roundHalfEven (m : ℚ) = m := by
  simp [roundHalfEven]

theorem roundHalfEven_of_abs_lt {y : ℚ} {m : ℤ} (h : |y - m| < 1 / 2) : roundHalfEven y = m := by
  rw [abs_lt] at h
  unfold roundHalfEven
  by_cases hy : (m : ℚ) ≤ y
  · have hf : ⌊y⌋ = m := by
      rw [Int.floor_eq_iff]
      constructor
      · exact hy
      · linarith [h.2]
    rw [hf, if_pos (by linarith [h.2])]
  · have hf : ⌊y⌋ = m - 1 := by
      rw [Int.floor_eq_iff]
      push_cast
      constructor
      · linarith [h.1]
      · push_neg at hy; linarith
    rw [hf]
    push_cast
    rw [if_neg (by linarith [h.1]), if_pos (by linarith [h.1])]
    ring

theorem roundHalfEven_tie {y : ℚ} {m : ℤ} (h : y = m + 1 / 2) :
    roundHalfEven y = if m % 2 = 0 then m else m + 1 := by
  have hf : ⌊y⌋ = m := by
    rw [Int.floor_eq_iff]
    constructor <;> linarith
  unfold roundHalfEven
  rw [hf, h]
  have : (m : ℚ) + 1 / 2 - m = 1 / 2 := by ring
  rw [this]
  simp

theorem le_roundHalfEven {y : ℚ} {a : ℤ} (h : (a : ℚ) ≤ y) : a ≤ roundHalfEven y := by
  have hf : a ≤ ⌊y⌋ := Int.le_floor.mpr h
  unfold roundHalfEven
  split_ifs <;> omega

theorem roundHalfEven_le {y : ℚ} {b : ℤ} (h : y ≤ (b : ℚ)) : roundHalfEven y ≤ b := by
  by_cases hb : y = b
  · rw [hb, roundHalfEven_intCast]
  · have hlt : y < b := lt_of_le_of_ne h hb
    have hf : ⌊y⌋ < b := Int.floor_lt.mpr hlt
    unfold roundHalfEven
    split_ifs <;> omega

theorem ulpExponent_ge (x : ℚ) : -1074 ≤ ulpExponent x := le_max_right _ _

theorem two_zpow_pos (u : ℤ) : (0 : ℚ) < 2 ^ u := zpow_pos (by norm_num) u

theorem round64_zero : round64 0 = 0 := by
  simp [round64, roundHalfEven]

theorem log_abs_eq {x : ℚ} {k : ℤ} (hlo : (2 : ℚ) ^ k ≤ |x|) (hhi : |x| < 2 ^ (k + 1)) :
    Int.log 2 |x| = k := by
  have hpos : 0 < |x| := lt_of_lt_of_le (two_zpow_pos k) hlo
  have h1 : k ≤ Int.log 2 |x| :=
    (Int.zpow_le_iff_le_log (by norm_num) hpos).mp (by exact_mod_cast hlo)
  have h2 : Int.log 2 |x| < k + 1 :=
    (Int.lt_zpow_iff_log_lt (by norm_num) hpos).mp (by exact_mod_cast hhi)
  omega

theorem round64_eq_of_near {x : ℚ} {k u m : ℤ} (hlo : (2 : ℚ) ^ k ≤ |x|)
    (hhi : |x| < 2 ^ (k + 1)) (hu : u = max (k - 52) (-1074))
    (hnear : |x / 2 ^ u - m| < 1 / 2) : round64 x = m * 2 ^ u := by
  have hue : ulpExponent x = u := by rw [ulpExponent, log_abs_eq hlo hhi, hu]
  rw [round64, hue, roundHalfEven_of_abs_lt hnear]

theorem round64_eq_of_tie {x : ℚ} {k u m : ℤ} (hlo : (2 : ℚ) ^ k ≤ |x|)
    (hhi : |x| < 2 ^ (k + 1)) (hu : u = max (k - 52) (-1074))
    (htie : x / 2 ^ u = m + 1 / 2) :
    round64 x = ((if m % 2 = 0 then m else m + 1 : ℤ) : ℚ) * 2 ^ u := by
  have hue : ulpExponent x = u := by rw [ulpExponent, log_abs_eq hlo hhi, hu]
  rw [round64, hue, roundHalfEven_tie htie]

/-- A number `m * 2 ^ e` with `|m| < 2 ^ 53` and `e ≥ -1074` is a binary64
number: rounding leaves it as it is. -/
theorem round64_of_repr (m e : ℤ) (hm : |m| < 2 ^ 53) (he : -1074 ≤ e) :
    round64 ((m : ℚ) * 2 ^ e) = m * 2 ^ e := by
  by_cases hm0 : m = 0
  · subst hm0
    simp [round64_zero]
  have hxpos : 0 < |(m : ℚ) * 2 ^ e| := by
    rw [abs_mul, abs_of_pos (two_zpow_pos e)]
    exact mul_pos (abs_pos.mpr (by exact_mod_cast hm0)) (two_zpow_pos e)
  have hlt : |(m : ℚ) * 2 ^ e| < 2 ^ (e + 53) := by
    rw [abs_mul, abs_of_pos (two_zpow_pos e), zpow_add₀ (by norm_num), mul_comm]
    apply mul_lt_mul_of_pos_left _ (two_zpow_pos e)
    rw [← Int.cast_abs]
    exact_mod_cast hm
  have hk : Int.log 2 |(m : ℚ) * 2 ^ e| < e + 53 :=
    (Int.lt_zpow_iff_log_lt (by norm_num) hxpos).mp (by exact_mod_cast hlt)
  have hu : ulpExponent ((m : ℚ) * 2 ^ e) ≤ e := by
    unfold ulpExponent
    exact max_le (by omega) he
  obtain ⟨n, hn⟩ : ∃ n : ℕ, e = ulpExponent ((m : ℚ) * 2 ^ e) + n :=
    ⟨(e - ulpExponent ((m : ℚ) * 2 ^ e)).toNat, by omega⟩
  unfold round64
  generalize ulpExponent ((m : ℚ) * 2 ^ e) = u at hn
  have hdiv : (m : ℚ) * 2 ^ e / 2 ^ u = ((m * 2 ^ n : ℤ) : ℚ) := by
    rw [hn, zpow_add₀ (by norm_num), zpow_natCast]
    push_cast
    field_simp
    ring
  rw [hdiv, roundHalfEven_intCast, hn, zpow_add₀ (by norm_num), zpow_natCast]
  push_cast
  ring

theorem round64_intCast (n : ℤ) (hn : n.natAbs ≤ 2 ^ 53) : round64 (n : ℚ) = n := by
  by_cases h : n.natAbs < 2 ^ 53
  · have := round64_of_repr n 0 (by rw [Int.abs_eq_natAbs]; exact_mod_cast h) (by norm_num)
    simpa using this
  · have hab : n.natAbs = 2 ^ 53 := by omega
    rcases Int.natAbs_eq n with h1 | h1
    · have hn2 : n = 2 ^ 52 * 2 := by rw [h1, hab]; norm_num
      have e1 : (n : ℚ) = ((2 ^ 52 : ℤ) : ℚ) * 2 ^ (1 : ℤ) := by rw [hn2]; norm_num
      rw [e1]
      exact round64_of_repr (2 ^ 52) 1 (by norm_num) (by norm_num)
    · have hn2 : n = -(2 ^ 52) * 2 := by rw [h1, hab]; norm_num
      have e1 : (n : ℚ) = ((-(2 ^ 52) : ℤ) : ℚ) * 2 ^ (1 : ℤ) := by rw [hn2]; norm_num
      rw [e1]
      exact round64_of_repr (-(2 ^ 52)) 1 (by norm_num) (by norm_num)

theorem round64_one : round64 1 = 1 := by
  simpa using round64_intCast 1 (by decide)

theorem round64_nonneg {x : ℚ} (h : 0 ≤ x) : 0 ≤ round64 x := by
  unfold round64
  apply mul_nonneg _ (two_zpow_pos _).le
  have : (0 : ℤ) ≤ roundHalfEven (x / 2 ^ ulpExponent x) :=
    le_roundHalfEven (by simpa using div_nonneg h (two_zpow_pos _).le)
  exact_mod_cast this

theorem abs_roundHalfEven_le (x : ℚ) : |roundHalfEven (x / 2 ^ ulpExponent x)| ≤ 2 ^ 53 := by
  have hu := two_zpow_pos (ulpExponent x)
  have hb : |x / 2 ^ ulpExponent x| ≤ 2 ^ 53 := by
    rw [abs_div, abs_of_pos hu, div_le_iff₀ hu]
    by_cases hx : x = 0
    · subst hx; simp; positivity
    have hlt := Int.lt_zpow_succ_log_self (b := 2) (by norm_num) |x|
    have hle : (2 : ℚ) ^ (Int.log 2 |x| + 1) ≤ 2 ^ 53 * 2 ^ ulpExponent x := by
      rw [show (2 : ℚ) ^ 53 = 2 ^ (53 : ℤ) by norm_num, ← zpow_add₀ (by norm_num)]
      apply zpow_le_zpow_right₀ (by norm_num)
      have : Int.log 2 |x| - 52 ≤ ulpExponent x := le_max_left _ _
      omega
    have hlt' : |x| < (2 : ℚ) ^ (Int.log 2 |x| + 1) := by exact_mod_cast hlt
    linarith
  rw [abs_le] at hb ⊢
  constructor
  · exact le_roundHalfEven (by push_cast; exact hb.1)
  · exact roundHalfEven_le (by push_cast; exact hb.2)

theorem round64_idem (x : ℚ) : round64 (round64 x) = round64 x := by
  have hM := abs_roundHalfEven_le x
  have hu := ulpExponent_ge x
  unfold round64 at *
  generalize roundHalfEven (x / 2 ^ ulpExponent x) = M at hM
  generalize ulpExponent x = u at hu
  by_cases h : |M| < 2 ^ 53
  · exact round64_of_repr M u h hu
  · have hab : |M| = 2 ^ 53 := le_antisymm hM (not_lt.mp h)
    have key : ∀ m : ℤ, |m| < 2 ^ 53 → M = m * 2 →
        round64 ((M : ℚ) * 2 ^ u) = M * 2 ^ u := by
      intro m hm hMm
      have h1 : (M : ℚ) * 2 ^ u = (m : ℚ) * 2 ^ (u + 1) := by
        rw [hMm, zpow_add₀ (by norm_num)]
        push_cast
        ring
      rw [h1]
      exact round64_of_repr m (u + 1) hm (by omega)
    rcases abs_eq (by norm_num : (0 : ℤ) ≤ 2 ^ 53) |>.mp hab with h1 | h1
    · exact key (2 ^ 52) (by norm_num) (by rw [h1]; norm_num)
    · exact key (-(2 ^ 52)) (by norm_num) (by rw [h1]; norm_num)

theorem le_round64 {x : ℚ} {j : ℤ} (hj : -1074 ≤ j) (h : (2 : ℚ) ^ j ≤ x) :
    (2 : ℚ) ^ j ≤ round64 x := by
  have hxpos : 0 < x := lt_of_lt_of_le (two_zpow_pos j) h
  have habs : |x| = x := abs_of_pos hxpos
  have hk : j ≤ Int.log 2 |x| := by
    rw [habs]
    exact (Int.zpow_le_iff_le_log (by norm_num) hxpos).mp (by exact_mod_cast h)
  have hkx : (2 : ℚ) ^ Int.log 2 |x| ≤ x := by
    have := Int.zpow_log_le_self (b := 2) (r := x) (by norm_num) hxpos
    rw [habs]
    exact_mod_cast this
  have hu : ulpExponent x ≤ Int.log 2 |x| := by
    unfold ulpExponent
    exact max_le (by omega) (by omega)
  obtain ⟨n, hn⟩ : ∃ n : ℕ, Int.log 2 |x| = ulpExponent x + n :=
    ⟨(Int.log 2 |x| - ulpExponent x).toNat, by omega⟩
  unfold round64
  generalize ulpExponent x = u at hn
  generalize Int.log 2 |x| = k at hn hk hkx
  have hup := two_zpow_pos u
  have hy : (((2 ^ n : ℕ) : ℤ) : ℚ) ≤ x / 2 ^ u := by
    rw [le_div_iff₀ hup]
    push_cast
    rw [← zpow_natCast, ← zpow_add₀ (by norm_num), add_comm, ← hn]
    exact hkx
  have hM := le_roundHalfEven hy
  have hM' : ((2 : ℚ) ^ n) ≤ (roundHalfEven (x / 2 ^ u) : ℚ) := by exact_mod_cast hM
  calc (2 : ℚ) ^ j ≤ 2 ^ k := zpow_le_zpow_right₀ (by norm_num) hk
    _ = 2 ^ n * 2 ^ u := by rw [hn, add_comm, zpow_add₀ (by norm_num), zpow_natCast]
    _ ≤ roundHalfEven (x / 2 ^ u) * 2 ^ u := mul_le_mul_of_nonneg_right hM' hup.le

theorem roundHalfEven_mono {y z : ℚ} (h : y ≤ z) : roundHalfEven y ≤ roundHalfEven z := by
  have hfl : ⌊y⌋ ≤ ⌊z⌋ := Int.floor_mono h
  by_cases hf : ⌊y⌋ = ⌊z⌋
  · unfold roundHalfEven
    rw [← hf]
    have hr : y - ⌊y⌋ ≤ z - ⌊y⌋ := by linarith
    split_ifs <;> first | omega | (exfalso; linarith)
  · have hlt : ⌊y⌋ + 1 ≤ ⌊z⌋ := by omega
    have h1 : roundHalfEven y ≤ ⌊y⌋ + 1 := by
      unfold roundHalfEven
      split_ifs <;> omega
    have h2 : ⌊z⌋ ≤ roundHalfEven z := by
      unfold roundHalfEven
      split_ifs <;> omega
    omega

theorem round64_le_two_zpow {x : ℚ} {j : ℤ} (hj : -1074 ≤ j) (hx : 0 < x)
    (h : x ≤ (2 : ℚ) ^ j) : round64 x ≤ (2 : ℚ) ^ j := by
  have habs : |x| = x := abs_of_pos hx
  have hk : Int.log 2 |x| ≤ j := by
    rw [habs]
    have hlt : x < (2 : ℚ) ^ (j + 1) :=
      lt_of_le_of_lt h (zpow_lt_zpow_right₀ (by norm_num) (by omega))
    have := (Int.lt_zpow_iff_log_lt (b := 2) (by norm_num) hx).mp (by exact_mod_cast hlt)
    omega
  have hu : ulpExponent x ≤ j := by
    unfold ulpExponent
    exact max_le (by omega) hj
  obtain ⟨n, hn⟩ : ∃ n : ℕ, j = ulpExponent x + n := ⟨(j - ulpExponent x).toNat, by omega⟩
  unfold round64
  generalize ulpExponent x = u at hn
  have hup := two_zpow_pos u
  have hy : x / 2 ^ u ≤ (((2 ^ n : ℕ) : ℤ) : ℚ) := by
    rw [div_le_iff₀ hup]
    push_cast
    rw [← zpow_natCast, ← zpow_add₀ (by norm_num), add_comm, ← hn]
    exact h
  have hM := roundHalfEven_le hy
  have hM' : (roundHalfEven (x / 2 ^ u) : ℚ) ≤ (2 : ℚ) ^ n := by exact_mod_cast hM
  calc (roundHalfEven (x / 2 ^ u) : ℚ) * 2 ^ u ≤ 2 ^ n * 2 ^ u :=
        mul_le_mul_of_nonneg_right hM' hup.le
    _ = 2 ^ j := by rw [hn, add_comm, zpow_add₀ (by norm_num), zpow_natCast]

/-- Rounding to binary64 keeps the order of non-negative numbers. -/
theorem round64_mono {x y : ℚ} (hx : 0 ≤ x) (h : x ≤ y) : round64 x ≤ round64 y := by
  rcases eq_or_lt_of_le hx with h0 | hxpos
  · rw [← h0, round64_zero]
    exact round64_nonneg (by linarith)
  have hypos : 0 < y := lt_of_lt_of_le hxpos h
  have hlog : Int.log 2 |x| ≤ Int.log 2 |y| := by
    rw [abs_of_pos hxpos, abs_of_pos hypos]
    exact Int.log_mono_right hxpos h
  have hule : ulpExponent x ≤ ulpExponent y := by
    unfold ulpExponent
    exact max_le_max (by omega) le_rfl
  rcases eq_or_lt_of_le hule with hu | hu
  · unfold round64
    rw [← hu]
    have hup := two_zpow_pos (ulpExponent x)
    have : roundHalfEven (x / 2 ^ ulpExponent x) ≤ roundHalfEven (y / 2 ^ ulpExponent x) :=
      roundHalfEven_mono (div_le_div_of_nonneg_right h hup.le)
    exact mul_le_mul_of_nonneg_right (by exact_mod_cast this) hup.le
  · have hky : ulpExponent y = Int.log 2 |y| - 52 := by
      have h1 : -1074 ≤ ulpExponent x := le_max_right _ _
      unfold ulpExponent at hu ⊢
      rcases max_cases (Int.log 2 |y| - 52) (-1074) with ⟨h2, _⟩ | ⟨h2, _⟩
      · exact h2
      · rw [h2] at hu
        unfold ulpExponent at h1
        omega
    have hkx : Int.log 2 |x| < Int.log 2 |y| := by
      by_contra hge
      have : Int.log 2 |x| = Int.log 2 |y| := by omega
      unfold ulpExponent at hu
      rw [this] at hu
      exact lt_irrefl _ hu
    have hj : -1074 ≤ Int.log 2 |y| := by
      have h1 : -1074 ≤ ulpExponent y := le_max_right _ _
      omega
    have hxle : x ≤ (2 : ℚ) ^ Int.log 2 |y| := by
      have hlt := Int.lt_zpow_succ_log_self (b := 2) (by norm_num) |x|
      rw [abs_of_pos hxpos] at hlt
      have hlt' : x < (2 : ℚ) ^ (Int.log 2 x + 1) := by exact_mod_cast hlt
      rw [abs_of_pos hxpos] at hkx
      exact hlt'.le.trans (zpow_le_zpow_right₀ (by norm_num) (by omega))
    have hyge : (2 : ℚ) ^ Int.log 2 |y| ≤ y := by
      have := Int.zpow_log_le_self (b := 2) (r := y) (by norm_num) hypos
      rw [abs_of_pos hypos]
      exact_mod_cast this
    exact (round64_le_two_zpow hj hxpos hxle).trans (le_round64 hj hyge)

theorem round64_eq_of_near_pos {x : ℚ} {k u m : ℤ} (hlo : (2 : ℚ) ^ k ≤ x)
    (hhi : x < 2 ^ (k + 1)) (hu : u = max (k - 52) (-1074))
    (hnear : -(1 / 2) < x / 2 ^ u - m ∧ x / 2 ^ u - m < 1 / 2) : round64 x = m * 2 ^ u := by
  have hx : |x| = x := abs_of_pos (lt_of_lt_of_le (two_zpow_pos k) hlo)
  exact round64_eq_of_near (by rw [hx]; exact hlo) (by rw [hx]; exact hhi) hu
    (abs_lt.mpr hnear)

theorem round64_eq_of_tie_pos {x : ℚ} {k u m : ℤ} (hlo : (2 : ℚ) ^ k ≤ x)
    (hhi : x < 2 ^ (k + 1)) (hu : u = max (k - 52) (-1074))
    (htie : x / 2 ^ u = m + 1 / 2) :
    round64 x = ((if m % 2 = 0 then m else m + 1 : ℤ) : ℚ) * 2 ^ u := by
  have hx : |x| = x := abs_of_pos (lt_of_lt_of_le (two_zpow_pos k) hlo)
  exact round64_eq_of_tie (by rw [hx]; exact hlo) (by rw [hx]; exact hhi) hu htie

theorem round64_ofNat_example : round64 (9007199254740993 : ℚ) = 9007199254740992 := by
  rw [round64_eq_of_tie_pos (x := 9007199254740993) (k := 53) (u := 1) (m := 4503599627370496)
    (by norm_num) (by norm_num) (by norm_num) (by norm_num)]
  norm_num

theorem numberOfInt_of_le {n : Int} (h : n.natAbs ≤ 9007199254740992) :
    numberOfInt n = .int n := by
  simp [numberOfInt, h]

theorem truthy_numberOfInt {n : Int} (h : n ≠ 0) : truthy (numberOfInt n) = true := by
  unfold numberOfInt
  split_ifs with h1 h2
  · simpa [truthy] using h
  · rfl
  · have hge : (2 : ℚ) ^ (0 : ℤ) ≤ (n.natAbs : ℚ) := by
      have : 1 ≤ n.natAbs := Nat.one_le_iff_ne_zero.mpr (Int.natAbs_ne_zero.mpr h)
      simpa using (by exact_mod_cast this : (1 : ℚ) ≤ (n.natAbs : ℚ))
    have hr := le_round64 (by norm_num) hge
    have hfl : 1 ≤ ⌊round64 (n.natAbs : ℚ)⌋ := Int.le_floor.mpr (by simpa using hr)
    have hs : n.sign ≠ 0 := by
      intro h0
      exact h (Int.sign_eq_zero_iff_zero.mp h0)
    have : n.sign * ⌊round64 (n.natAbs : ℚ)⌋ ≠ 0 := mul_ne_zero hs (by omega)
    simpa [truthy] using this

theorem parseInt_absent : parseInt (attrToString none) = .nan := by decide

/-- C3 (as stated, refuted): with `data-target="0"` present and parsing as the
integer 0, the target is the integer parsed from the element text (57), not 0;
and with `data-target="abc"` present the text is parsed although the attribute
is not absent. -/
theorem counterTarget_zero_falls_back :
    parseInt "0" = .int 0 ∧ counterTarget (some "0") "57" = .int 57 ∧
    textParsed (some "0") = true ∧
    parseInt "abc" = .nan ∧ counterTarget (some "abc") "42" = .int 42 ∧
    textParsed (some "abc") = true := by
  decide

/-- C3 (amended): the target is the Number value of the integer parsed from
`data-target` whenever the attribute is present and parses as a non-zero
integer: the integer itself up to `2 ^ 53` in magnitude, beyond that the
nearest binary64 number (`"9007199254740993"` gives 9007199254740992); when
the attribute is absent or does not parse as an integer the target is parsed
from the element text; the text is parsed only if the attribute is absent or
does not parse as a non-zero integer. -/
theorem counterTarget_sources (dataTarget : Option String) (textContent : String) :
    (∀ a n, dataTarget = some a → mathInt a = some n → n ≠ 0 →
      counterTarget dataTarget textContent = numberOfInt n ∧
      textParsed dataTarget = false ∧
      (n.natAbs ≤ 2 ^ 53 → counterTarget dataTarget textContent = .int n)) ∧
    (dataTarget = none → counterTarget dataTarget textContent = parseInt textContent) ∧
    (∀ a, dataTarget = some a → mathInt a = none →
      counterTarget dataTarget textContent = parseInt textContent) ∧
    (textParsed dataTarget = true →
      dataTarget = none ∨
        ∃ a, dataTarget = some a ∧ (mathInt a = none ∨ mathInt a = some 0)) ∧
    parseInt "9007199254740993" = .int 9007199254740992 := by
  refine ⟨?_, ?_, ?_, ?_, ?_⟩
  · rintro a n rfl hn h0
    have hp : parseInt a = numberOfInt n := by simp [parseInt, hn]
    have ht := truthy_numberOfInt h0
    refine ⟨?_, ?_, fun hle => ?_⟩
    · simp [counterTarget, attrToString, hp, ht]
    · simp [textParsed, attrToString, hp, ht]
    · simp only [counterTarget, attrToString, hp, ht, if_true]
      exact numberOfInt_of_le (by simpa using hle)
  · rintro rfl
    simp [counterTarget, parseInt_absent, truthy]
  · rintro a rfl hn
    have hp : parseInt a = .nan := by simp [parseInt, hn]
    simp [counterTarget, attrToString, hp, truthy]
  · intro h
    cases dataTarget with
    | none => exact Or.inl rfl
    | some a =>
      refine Or.inr ⟨a, rfl, ?_⟩
      cases hm : mathInt a with
      | none => exact Or.inl rfl
      | some n =>
        right
        by_cases h0 : n = 0
        · rw [h0]
        · have hp : parseInt a = numberOfInt n := by simp [parseInt, hm]
          have ht := truthy_numberOfInt h0
          simp [textParsed, attrToString, hp, ht] at h
  · have hm : mathInt "9007199254740993" = some 9007199254740993 := by decide
    have hr : round64 ((9007199254740993 : ℤ).natAbs : ℚ) = 9007199254740992 := by
      have : ((9007199254740993 : ℤ).natAbs : ℚ) = 9007199254740993 := by norm_num
      rw [this]
      exact round64_ofNat_example
    simp only [parseInt, hm, numberOfInt, hr]
    norm_num
    decide

theorem counterTarget_sources_witness :
    counterTarget (some "250") "7" = numberOfInt 250 ∧ textParsed (some "250") = false ∧
    ((250 : ℤ).natAbs ≤ 2 ^ 53 → counterTarget (some "250") "7" = .int 250) :=
  (counterTarget_sources (some "250") "7").1 "250" 250 rfl (by decide) (by decide)

theorem round64_eq_self_of {x : ℚ} (m e : ℤ) (hx : x = m * 2 ^ e) (hm : |m| < 2 ^ 53)
    (he : -1074 ≤ e) : round64 x = x := by
  rw [hx]
  exact round64_of_repr m e hm he

theorem progress64_le_one (start t : ℚ) : progress64 start t ≤ 1 := by
  unfold progress64
  exact min_le_right _ _

theorem progress64_nonneg {start t : ℚ} (h : start ≤ t) : 0 ≤ progress64 start t := by
  unfold progress64 duration
  apply le_min _ zero_le_one
  apply round64_nonneg
  apply div_nonneg _ (by norm_num)
  exact round64_nonneg (by linarith)

theorem updateCounter64_shown_of_lt {pow4 : ℚ → ℚ} {T : Int} {start t : ℚ}
    (h : progress64 start t < 1) :
    (updateCounter64 pow4 T start t).shown
      = ⌊round64 (round64 (T : ℚ) * easeOutQuart64 pow4 (progress64 start t))⌋ := by
  unfold updateCounter64
  rw [if_pos h]
  simp only [startValue, sub_zero, zero_add, round64_idem]

theorem updateCounter64_of_not_lt {pow4 : ℚ → ℚ} {T : Int} {start t : ℚ}
    (h : ¬ progress64 start t < 1) :
    updateCounter64 pow4 T start t = { shown := T, requested := false } := by
  unfold updateCounter64
  rw [if_neg h]

theorem pow4Rounded_zero : pow4Rounded 0 = 0 := by
  simp [pow4Rounded, round64_zero]

theorem pow4Rounded_one : pow4Rounded 1 = 1 := by
  simp [pow4Rounded, round64_one]

theorem updateCounter64_rounded_at_400 :
    (updateCounter64 pow4Rounded 10000 0 400).shown = 5903 := by
  have h1 : round64 ((400 : ℚ) - 0) = 400 := by
    rw [sub_zero]
    simpa using round64_intCast 400 (by decide)
  have h2 : round64 (400 / 2000) = 3602879701896397 / 18014398509481984 := by
    rw [round64_eq_of_near_pos (x := 400 / 2000) (k := -3) (u := -55) (m := 7205759403792794)
      (by norm_num) (by norm_num) (by norm_num) (by norm_num)]
    norm_num
  have h3 : round64 (1 - 3602879701896397 / 18014398509481984) = 3602879701896397 / 4503599627370496 := by
    rw [round64_eq_of_tie_pos (x := 1 - 3602879701896397 / 18014398509481984) (k := -1) (u := -53) (m := 7205759403792793)
      (by norm_num) (by norm_num) (by norm_num) (by norm_num)]
    norm_num
  have h4 : round64 ((3602879701896397 / 4503599627370496) ^ 4) = 3689348814741911 / 9007199254740992 := by
    rw [round64_eq_of_near_pos (x := (3602879701896397 / 4503599627370496) ^ 4) (k := -2) (u := -54) (m := 7378697629483822)
      (by norm_num) (by norm_num) (by norm_num) (by norm_num)]
    norm_num
  have h5 : round64 (1 - 3689348814741911 / 9007199254740992) = 5317850439999081 / 9007199254740992 := by
    rw [round64_eq_of_near_pos (x := 1 - 3689348814741911 / 9007199254740992) (k := -1) (u := -53) (m := 5317850439999081)
      (by norm_num) (by norm_num) (by norm_num) (by norm_num)]
    norm_num
  have h7 : round64 (10000 * (5317850439999081 / 9007199254740992)) = 6491516650389503 / 1099511627776 := by
    rw [round64_eq_of_near_pos (x := 10000 * (5317850439999081 / 9007199254740992)) (k := 12) (u := -40) (m := 6491516650389503)
      (by norm_num) (by norm_num) (by norm_num) (by norm_num)]
    norm_num
  have hp : progress64 0 400 = 3602879701896397 / 18014398509481984 := by
    simp only [progress64, duration]
    rw [h1, h2]
    norm_num
  have hE : easeOutQuart64 pow4Rounded (3602879701896397 / 18014398509481984) = 5317850439999081 / 9007199254740992 := by
    simp only [easeOutQuart64, pow4Rounded]
    rw [h3, h4, h5]
  have hT : round64 ((10000 : ℤ) : ℚ) = 10000 := by
    simpa using round64_intCast 10000 (by decide)
  rw [updateCounter64_shown_of_lt (by rw [hp]; norm_num), hp, hE, hT, h7, Int.floor_eq_iff]
  norm_num

theorem updateCounter64_product_at_400 :
    (updateCounter64 pow4Product 10000 0 400).shown = 5903 := by
  have h1 : round64 ((400 : ℚ) - 0) = 400 := by
    rw [sub_zero]
    simpa using round64_intCast 400 (by decide)
  have h2 : round64 (400 / 2000) = 3602879701896397 / 18014398509481984 := by
    rw [round64_eq_of_near_pos (x := 400 / 2000) (k := -3) (u := -55) (m := 7205759403792794)
      (by norm_num) (by norm_num) (by norm_num) (by norm_num)]
    norm_num
  have h3 : round64 (1 - 3602879701896397 / 18014398509481984) = 3602879701896397 / 4503599627370496 := by
    rw [round64_eq_of_tie_pos (x := 1 - 3602879701896397 / 18014398509481984) (k := -1) (u := -53) (m := 7205759403792793)
      (by norm_num) (by norm_num) (by norm_num) (by norm_num)]
    norm_num
  have h4a : round64 (3602879701896397 / 4503599627370496 * (3602879701896397 / 4503599627370496)) = 1441151880758559 / 2251799813685248 := by
    rw [round64_eq_of_near_pos (x := 3602879701896397 / 4503599627370496 * (3602879701896397 / 4503599627370496)) (k := -1) (u := -53) (m := 5764607523034236)
      (by norm_num) (by norm_num) (by norm_num) (by norm_num)]
    norm_num
  have h4b : round64 (1441151880758559 / 2251799813685248 * (3602879701896397 / 4503599627370496)) = 4611686018427389 / 9007199254740992 := by
    rw [round64_eq_of_near_pos (x := 1441151880758559 / 2251799813685248 * (3602879701896397 / 4503599627370496)) (k := -1) (u := -53) (m := 4611686018427389)
      (by norm_num) (by norm_num) (by norm_num) (by norm_num)]
    norm_num
  have h4 : round64 (4611686018427389 / 9007199254740992 * (3602879701896397 / 4503599627370496)) = 7378697629483823 / 18014398509481984 := by
    rw [round64_eq_of_near_pos (x := 4611686018427389 / 9007199254740992 * (3602879701896397 / 4503599627370496)) (k := -2) (u := -54) (m := 7378697629483823)
      (by norm_num) (by norm_num) (by norm_num) (by norm_num)]
    norm_num
  have h5 : round64 (1 - 7378697629483823 / 18014398509481984) = 664731304999885 / 1125899906842624 := by
    rw [round64_eq_of_tie_pos (x := 1 - 7378697629483823 / 18014398509481984) (k := -1) (u := -53) (m := 5317850439999080)
      (by norm_num) (by norm_num) (by norm_num) (by norm_num)]
    norm_num
  have h7 : round64 (10000 * (664731304999885 / 1125899906842624)) = 3245758325194751 / 549755813888 := by
    rw [round64_eq_of_near_pos (x := 10000 * (664731304999885 / 1125899906842624)) (k := 12) (u := -40) (m := 6491516650389502)
      (by norm_num) (by norm_num) (by norm_num) (by norm_num)]
    norm_num
  have hp : progress64 0 400 = 3602879701896397 / 18014398509481984 := by
    simp only [progress64, duration]
    rw [h1, h2]
    norm_num
  have hE : easeOutQuart64 pow4Product (3602879701896397 / 18014398509481984) = 664731304999885 / 1125899906842624 := by
    simp only [easeOutQuart64, pow4Product]
    rw [h3, h4a, h4b, h4, h5]
  have hT : round64 ((10000 : ℤ) : ℚ) = 10000 := by
    simpa using round64_intCast 10000 (by decide)
  rw [updateCounter64_shown_of_lt (by rw [hp]; norm_num), hp, hE, hT, h7, Int.floor_eq_iff]
  norm_num

theorem updateCounter64_product_at_200 :
    (updateCounter64 pow4Product 10000 0 200).shown = 3438 := by
  have h1 : round64 ((200 : ℚ) - 0) = 200 := by
    rw [sub_zero]
    simpa using round64_intCast 200 (by decide)
  have h2 : round64 (200 / 2000) = 3602879701896397 / 36028797018963968 := by
    rw [round64_eq_of_near_pos (x := 200 / 2000) (k := -4) (u := -56) (m := 7205759403792794)
      (by norm_num) (by norm_num) (by norm_num) (by norm_num)]
    norm_num
  have h3 : round64 (1 - 3602879701896397 / 36028797018963968) = 8106479329266893 / 9007199254740992 := by
    rw [round64_eq_of_near_pos (x := 1 - 3602879701896397 / 36028797018963968) (k := -1) (u := -53) (m := 8106479329266893)
      (by norm_num) (by norm_num) (by norm_num) (by norm_num)]
    norm_num
  have h4a : round64 (8106479329266893 / 9007199254740992 * (8106479329266893 / 9007199254740992)) = 1823957849085051 / 2251799813685248 := by
    rw [round64_eq_of_near_pos (x := 8106479329266893 / 9007199254740992 * (8106479329266893 / 9007199254740992)) (k := -1) (u := -53) (m := 7295831396340204)
      (by norm_num) (by norm_num) (by norm_num) (by norm_num)]
    norm_num
  have h4b : round64 (1823957849085051 / 2251799813685248 * (8106479329266893 / 9007199254740992)) = 820781032088273 / 1125899906842624 := by
    rw [round64_eq_of_near_pos (x := 1823957849085051 / 2251799813685248 * (8106479329266893 / 9007199254740992)) (k := -1) (u := -53) (m := 6566248256706184)
      (by norm_num) (by norm_num) (by norm_num) (by norm_num)]
    norm_num
  have h4 : round64 (820781032088273 / 1125899906842624 * (8106479329266893 / 9007199254740992)) = 2954811715517783 / 4503599627370496 := by
    rw [round64_eq_of_near_pos (x := 820781032088273 / 1125899906842624 * (8106479329266893 / 9007199254740992)) (k := -1) (u := -53) (m := 5909623431035566)
      (by norm_num) (by norm_num) (by norm_num) (by norm_num)]
    norm_num
  have h5 : round64 (1 - 2954811715517783 / 4503599627370496) = 1548787911852713 / 4503599627370496 := by
    rw [round64_eq_of_near_pos (x := 1 - 2954811715517783 / 4503599627370496) (k := -2) (u := -54) (m := 6195151647410852)
      (by norm_num) (by norm_num) (by norm_num) (by norm_num)]
    norm_num
  have h7 : round64 (10000 * (1548787911852713 / 4503599627370496)) = 7562440975843325 / 2199023255552 := by
    rw [round64_eq_of_near_pos (x := 10000 * (1548787911852713 / 4503599627370496)) (k := 11) (u := -41) (m := 7562440975843325)
      (by norm_num) (by norm_num) (by norm_num) (by norm_num)]
    norm_num
  have hp : progress64 0 200 = 3602879701896397 / 36028797018963968 := by
    simp only [progress64, duration]
    rw [h1, h2]
    norm_num
  have hE : easeOutQuart64 pow4Product (3602879701896397 / 36028797018963968) = 1548787911852713 / 4503599627370496 := by
    simp only [easeOutQuart64, pow4Product]
    rw [h3, h4a, h4b, h4, h5]
  have hT : round64 ((10000 : ℤ) : ℚ) = 10000 := by
    simpa using round64_intCast 10000 (by decide)
  rw [updateCounter64_shown_of_lt (by rw [hp]; norm_num), hp, hE, hT, h7, Int.floor_eq_iff]
  norm_num

theorem round64_le_one {x : ℚ} (h0 : 0 ≤ x) (h1 : x ≤ 1) : round64 x ≤ 1 := by
  have := round64_mono h0 h1
  rwa [round64_one] at this

theorem progress64_mono {start t u : ℚ} (hs : start ≤ t) (h : t ≤ u) :
    progress64 start t ≤ progress64 start u := by
  unfold progress64 duration
  apply min_le_min_right
  have he : round64 (t - start) ≤ round64 (u - start) :=
    round64_mono (by linarith) (by linarith)
  exact round64_mono (div_nonneg (round64_nonneg (by linarith)) (by norm_num))
    (div_le_div_of_nonneg_right he (by norm_num))

theorem easeOutQuart64_bounds {pow4 : ℚ → ℚ}
    (hmono : ∀ x y, 0 ≤ x → x ≤ y → y ≤ 1 → pow4 x ≤ pow4 y)
    (hpow0 : pow4 0 = 0) (hpow1 : pow4 1 = 1) {p : ℚ} (h0 : 0 ≤ p) (h1 : p ≤ 1) :
    0 ≤ easeOutQuart64 pow4 p ∧ easeOutQuart64 pow4 p ≤ 1 := by
  have ha0 : 0 ≤ round64 (1 - p) := round64_nonneg (by linarith)
  have ha1 : round64 (1 - p) ≤ 1 := round64_le_one (by linarith) (by linarith)
  have hb0 : 0 ≤ pow4 (round64 (1 - p)) := by
    have := hmono 0 _ le_rfl ha0 ha1
    rwa [hpow0] at this
  have hb1 : pow4 (round64 (1 - p)) ≤ 1 := by
    have := hmono _ 1 ha0 ha1 le_rfl
    rwa [hpow1] at this
  unfold easeOutQuart64
  exact ⟨round64_nonneg (by linarith), round64_le_one (by linarith) (by linarith)⟩

theorem easeOutQuart64_mono {pow4 : ℚ → ℚ}
    (hmono : ∀ x y, 0 ≤ x → x ≤ y → y ≤ 1 → pow4 x ≤ pow4 y)
    (hpow1 : pow4 1 = 1) {p q : ℚ} (h0 : 0 ≤ p) (h : p ≤ q) (h1 : q ≤ 1) :
    easeOutQuart64 pow4 p ≤ easeOutQuart64 pow4 q := by
  have haq0 : 0 ≤ round64 (1 - q) := round64_nonneg (by linarith)
  have hap1 : round64 (1 - p) ≤ 1 := round64_le_one (by linarith) (by linarith)
  have ha : round64 (1 - q) ≤ round64 (1 - p) := round64_mono (by linarith) (by linarith)
  have hb : pow4 (round64 (1 - q)) ≤ pow4 (round64 (1 - p)) := hmono _ _ haq0 ha hap1
  have hbp1 : pow4 (round64 (1 - p)) ≤ 1 := by
    have := hmono _ 1 (haq0.trans ha) hap1 le_rfl
    rwa [hpow1] at this
  unfold easeOutQuart64
  exact round64_mono (by linarith) (by linarith)

theorem easeOutQuart64_one {pow4 : ℚ → ℚ} (hpow0 : pow4 0 = 0) :
    easeOutQuart64 pow4 1 = 1 := by
  unfold easeOutQuart64
  rw [sub_self, round64_zero, hpow0, sub_zero, round64_one]

theorem shown64_eq_floor {pow4 : ℚ → ℚ} (hpow0 : pow4 0 = 0) {T : Int}
    (hT : T.natAbs ≤ 2 ^ 53) (start t : ℚ) :
    (updateCounter64 pow4 T start t).shown
      = ⌊round64 ((T : ℚ) * easeOutQuart64 pow4 (progress64 start t))⌋ := by
  have hTr : round64 (T : ℚ) = T := round64_intCast T hT
  by_cases hlt : progress64 start t < 1
  · rw [updateCounter64_shown_of_lt hlt, hTr]
  · have h1 : progress64 start t = 1 :=
      le_antisymm (progress64_le_one start t) (not_lt.mp hlt)
    rw [updateCounter64_of_not_lt hlt, h1, easeOutQuart64_one hpow0, mul_one, hTr]
    simp

theorem mem_runFrames64 {pow4 : ℚ → ℚ} {T : Int} {start : ℚ} {frames : List ℚ} {v : Int}
    (hv : v ∈ runFrames64 pow4 T start frames) :
    ∃ t ∈ frames, v = (updateCounter64 pow4 T start t).shown := by
  induction frames with
  | nil => simp [runFrames64] at hv
  | cons t ts ih =>
    simp only [runFrames64, List.mem_cons] at hv
    rcases hv with hv | hv
    · exact ⟨t, by simp, hv⟩
    · split_ifs at hv with hr
      · obtain ⟨u, hu, hvu⟩ := ih hv
        exact ⟨u, by simp [hu], hvu⟩
      · simp at hv

/-- The order properties of the counter in binary64 arithmetic: for a
`Math.pow` that is exact at 0 and 1 and keeps the order on `[0, 1]`, a
non-negative integer target that is a binary64 number and frame timestamps
that are non-decreasing and not earlier than the start time, the displayed
values are non-decreasing and lie between 0 and the target, and a frame whose
progress has reached 1 displays the target and requests no further frame. -/
theorem runFrames64_monotone_bounded {pow4 : ℚ → ℚ}
    (hmono : ∀ x y, 0 ≤ x → x ≤ y → y ≤ 1 → pow4 x ≤ pow4 y)
    (hpow0 : pow4 0 = 0) (hpow1 : pow4 1 = 1) (T : Int) (hT0 : 0 ≤ T)
    (hT : T.natAbs ≤ 2 ^ 53) (start : ℚ) (frames : List ℚ)
    (hsorted : frames.Pairwise (· ≤ ·)) (hstart : ∀ t ∈ frames, start ≤ t) :
    (runFrames64 pow4 T start frames).Pairwise (· ≤ ·) ∧
    (∀ v ∈ runFrames64 pow4 T start frames, 0 ≤ v ∧ v ≤ T) ∧
    (∀ t ∈ frames, ¬ progress64 start t < 1 →
      (updateCounter64 pow4 T start t).shown = T ∧
      (updateCounter64 pow4 T start t).requested = false) := by
  have hTq : (0 : ℚ) ≤ T := by exact_mod_cast hT0
  have hTr : round64 (T : ℚ) = T := round64_intCast T hT
  have hshown_mono : ∀ t u, start ≤ t → t ≤ u →
      (updateCounter64 pow4 T start t).shown ≤ (updateCounter64 pow4 T start u).shown := by
    intro t u hs htu
    rw [shown64_eq_floor hpow0 hT, shown64_eq_floor hpow0 hT]
    have hp0 := progress64_nonneg hs
    have hE := easeOutQuart64_mono hmono hpow1 hp0 (progress64_mono hs htu)
      (progress64_le_one start u)
    have hE0 := (easeOutQuart64_bounds hmono hpow0 hpow1 hp0 (progress64_le_one start t)).1
    exact Int.floor_mono (round64_mono (mul_nonneg hTq hE0)
      (mul_le_mul_of_nonneg_left hE hTq))
  have hbounds : ∀ t, start ≤ t →
      0 ≤ (updateCounter64 pow4 T start t).shown ∧
      (updateCounter64 pow4 T start t).shown ≤ T := by
    intro t hs
    rw [shown64_eq_floor hpow0 hT]
    have hE := easeOutQuart64_bounds hmono hpow0 hpow1 (progress64_nonneg hs)
      (progress64_le_one start t)
    constructor
    · exact Int.floor_nonneg.mpr (round64_nonneg (mul_nonneg hTq hE.1))
    · have h1 : round64 ((T : ℚ) * easeOutQuart64 pow4 (progress64 start t)) ≤ T := by
        have := round64_mono (mul_nonneg hTq hE.1)
          (mul_le_of_le_one_right hTq hE.2)
        rwa [hTr] at this
      have h2 := Int.floor_mono h1
      simpa using h2
  refine ⟨?_, ?_, ?_⟩
  · induction frames with
    | nil => simp [runFrames64]
    | cons t ts ih =>
      rw [List.pairwise_cons] at hsorted
      simp only [runFrames64]
      rw [List.pairwise_cons]
      constructor
      · intro v hv
        split_ifs at hv with hr
        · obtain ⟨u, hu, rfl⟩ := mem_runFrames64 hv
          exact hshown_mono t u (hstart t (List.mem_cons_self _ _)) (hsorted.1 u hu)
        · simp at hv
      · split_ifs with hr
        · exact ih hsorted.2 (fun u hu => hstart u (List.mem_cons_of_mem _ hu))
        · exact List.Pairwise.nil
  · intro v hv
    obtain ⟨u, hu, rfl⟩ := mem_runFrames64 hv
    exact hbounds u (hstart u hu)
  · intro t _ hlt
    rw [updateCounter64_of_not_lt hlt]
    exact ⟨rfl, rfl⟩

theorem pow4Rounded_mono (x y : ℚ) (hx : 0 ≤ x) (h : x ≤ y) (_hy : y ≤ 1) :
    pow4Rounded x ≤ pow4Rounded y := by
  unfold pow4Rounded
  exact round64_mono (by positivity) (pow_le_pow_left₀ hx h 4)

theorem pow4Product_mono (x y : ℚ) (hx : 0 ≤ x) (h : x ≤ y) (_hy : y ≤ 1) :
    pow4Product x ≤ pow4Product y := by
  have hy : 0 ≤ y := hx.trans h
  unfold pow4Product
  have h2 : round64 (x * x) ≤ round64 (y * y) :=
    round64_mono (mul_nonneg hx hx) (mul_le_mul h h hx hy)
  have h2x : 0 ≤ round64 (x * x) := round64_nonneg (mul_nonneg hx hx)
  have h3 : round64 (round64 (x * x) * x) ≤ round64 (round64 (y * y) * y) :=
    round64_mono (mul_nonneg h2x hx) (mul_le_mul h2 h hx (h2x.trans h2))
  have h3x : 0 ≤ round64 (round64 (x * x) * x) := round64_nonneg (mul_nonneg h2x hx)
  exact round64_mono (mul_nonneg h3x hx) (mul_le_mul h3 h hx (h3x.trans h3))

theorem pow4Product_zero : pow4Product 0 = 0 := by
  simp [pow4Product, round64_zero]

theorem pow4Product_one : pow4Product 1 = 1 := by
  simp [pow4Product, round64_one]

theorem progress64_before_start : progress64 1000 0 = -1 / 2 := by
  have h1 : round64 ((0 : ℚ) - 1000) = -1000 :=
    (round64_eq_self_of (-1000) 0 (by norm_num) (by norm_num) (by norm_num)).trans (by norm_num)
  have h2 : round64 ((-1000 : ℚ) / 2000) = -1 / 2 :=
    (round64_eq_self_of (-1) (-1) (by norm_num) (by norm_num) (by norm_num)).trans (by norm_num)
  simp only [progress64, duration]
  rw [h1, h2]
  norm_num

theorem updateCounter64_before_start :
    (updateCounter64 pow4Rounded 1234 1000 0).shown = -5014 := by
  have h3 : round64 ((1 : ℚ) - -1 / 2) = 3 / 2 :=
    (round64_eq_self_of 3 (-1) (by norm_num) (by norm_num) (by norm_num)).trans (by norm_num)
  have h4 : round64 (((3 : ℚ) / 2) ^ 4) = 81 / 16 :=
    (round64_eq_self_of 81 (-4) (by norm_num) (by norm_num) (by norm_num)).trans (by norm_num)
  have h5 : round64 ((1 : ℚ) - 81 / 16) = -65 / 16 :=
    (round64_eq_self_of (-65) (-4) (by norm_num) (by norm_num) (by norm_num)).trans (by norm_num)
  have hT : round64 ((1234 : ℤ) : ℚ) = 1234 := by
    simpa using round64_intCast 1234 (by decide)
  have h7 : round64 ((1234 : ℚ) * (-65 / 16)) = -40105 / 8 :=
    (round64_eq_self_of (-40105) (-3) (by norm_num) (by norm_num) (by norm_num)).trans
      (by norm_num)
  have hE : easeOutQuart64 pow4Rounded (-1 / 2) = -65 / 16 := by
    simp only [easeOutQuart64, pow4Rounded]
    rw [h3, h4, h5]
  rw [updateCounter64_shown_of_lt (by rw [progress64_before_start]; norm_num),
    progress64_before_start, hE, hT, h7, Int.floor_eq_iff]
  norm_num

theorem specFrameValue64_before_start :
    specFrameValue64 pow4Rounded 1234 (round64 (0 - 1000)) = 0 := by
  have h1 : round64 ((0 : ℚ) - 1000) = -1000 :=
    (round64_eq_self_of (-1000) 0 (by norm_num) (by norm_num) (by norm_num)).trans (by norm_num)
  have h2 : round64 ((-1000 : ℚ) / 2000) = -1 / 2 :=
    (round64_eq_self_of (-1) (-1) (by norm_num) (by norm_num) (by norm_num)).trans (by norm_num)
  have hclamp : max (0 : ℚ) (min (-1 / 2) 1) = 0 := by norm_num
  simp only [specFrameValue64]
  rw [h1, h2, hclamp, sub_zero, round64_one, pow4Rounded_one, sub_self, round64_zero,
    mul_zero, round64_zero]
  simp

/-- C2 (as stated, refuted): a frame whose timestamp is earlier than the start
time has a negative `progress`, which `Math.min(elapsed / duration, 1)` does
not clamp to 0: for target 1234, start 1000 and timestamp 0 the frame renders
-5014 where the clamped formula gives 0. And the formula is evaluated in
binary64 arithmetic, not exactly: for target 10000 the frame at elapsed 400
renders 5903 where the exact formula gives 5904 (whether `Math.pow` rounds the
fourth power correctly or multiplies three times), and with a `Math.pow` that
multiplies the frame at elapsed 200 renders 3438 where the exact formula gives
3439. -/
theorem updateCounter64_not_formula :
    progress64 1000 0 = -1 / 2 ∧
    (updateCounter64 pow4Rounded 1234 1000 0).shown = -5014 ∧
    specFrameValue64 pow4Rounded 1234 (round64 (0 - 1000)) = 0 ∧
    (updateCounter64 pow4Rounded 10000 0 400).shown = 5903 ∧
    (updateCounter64 pow4Product 10000 0 400).shown = 5903 ∧
    specFrameValue 10000 (400 - 0) = 5904 ∧
    (updateCounter64 pow4Product 10000 0 200).shown = 3438 ∧
    specFrameValue 10000 (200 - 0) = 3439 := by
  refine ⟨progress64_before_start, updateCounter64_before_start, specFrameValue64_before_start,
    updateCounter64_rounded_at_400, updateCounter64_product_at_400, ?_,
    updateCounter64_product_at_200, ?_⟩
  · unfold specFrameValue
    rw [Int.floor_eq_iff]
    norm_num
  · unfold specFrameValue
    rw [Int.floor_eq_iff]
    norm_num

/-- C2 (amended): for every integer target that is a binary64 number (at most
`2 ^ 53` in magnitude), every frame timestamp not earlier than the start time
and every `Math.pow` that is exact at 0 and at 1, the value rendered by the
frame is `floor(target * (1 - (1 - t)^4))` with
`t = clamp(elapsed / 2000, 0, 1)`, each operation evaluated in binary64
arithmetic, and the `t = min(elapsed / 2000, 1)` the code computes lies in
`[0, 1]`; for every timestamp `t` is at most 1; for target 1234 the frame at
elapsed 0 renders "0" and the frame at elapsed 2000 renders "1,234". -/
theorem updateCounter64_value_formula (pow4 : ℚ → ℚ) (T : Int) (start t : ℚ)
    (hpow0 : pow4 0 = 0) (hpow1 : pow4 1 = 1) (hT : T.natAbs ≤ 2 ^ 53) (h : start ≤ t) :
    (updateCounter64 pow4 T start t).shown
      = specFrameValue64 pow4 T (round64 (t - start)) ∧
    0 ≤ progress64 start t ∧ progress64 start t ≤ 1 ∧
    (∀ u : ℚ, progress64 start u ≤ 1) ∧
    (updateCounter64 pow4 1234 start start).textContent = "0" ∧
    (updateCounter64 pow4 1234 start (start + 2000)).textContent = "1,234" := by
  have h0 := progress64_nonneg h
  have hTr : round64 (T : ℚ) = T := round64_intCast T hT
  refine ⟨?_, h0, progress64_le_one start t, progress64_le_one start, ?_, ?_⟩
  · have hclamp : max 0 (min (round64 (round64 (t - start) / 2000)) 1) = progress64 start t := by
      have : min (round64 (round64 (t - start) / 2000)) 1 = progress64 start t := by
        simp only [progress64, duration]
      rw [this]
      exact max_eq_right h0
    simp only [specFrameValue64]
    rw [hclamp]
    by_cases hlt : progress64 start t < 1
    · rw [updateCounter64_shown_of_lt hlt, hTr]
      rfl
    · have h1 : progress64 start t = 1 :=
        le_antisymm (progress64_le_one start t) (not_lt.mp hlt)
      rw [updateCounter64_of_not_lt hlt, h1, sub_self, round64_zero, hpow0, sub_zero,
        round64_one, mul_one, hTr]
      simp
  · have hp : progress64 start start = 0 := by
      simp [progress64, duration, round64_zero]
    have h1234 : round64 ((1234 : ℤ) : ℚ) = 1234 := by
      simpa using round64_intCast 1234 (by decide)
    have hs : (updateCounter64 pow4 1234 start start).shown = 0 := by
      rw [updateCounter64_shown_of_lt (by rw [hp]; norm_num), hp]
      simp only [easeOutQuart64]
      rw [sub_zero, round64_one, hpow1, sub_self, round64_zero, mul_zero, round64_zero]
      simp
    unfold CounterFrame.textContent
    rw [hs]
    decide
  · have h2000 : round64 (2000 : ℚ) = 2000 := by
      simpa using round64_intCast 2000 (by decide)
    have hp : progress64 start (start + 2000) = 1 := by
      simp only [progress64, duration]
      rw [add_sub_cancel_left, h2000]
      norm_num [round64_one]
    rw [updateCounter64_of_not_lt (by rw [hp]; norm_num)]
    decide

theorem updateCounter64_value_formula_witness :
    (updateCounter64 pow4Rounded 1234 0 500).shown
      = specFrameValue64 pow4Rounded 1234 (round64 (500 - 0)) ∧
    0 ≤ progress64 0 500 ∧ progress64 0 500 ≤ 1 ∧
    (∀ u : ℚ, progress64 0 u ≤ 1) ∧
    (updateCounter64 pow4Rounded 1234 0 0).textContent = "0" ∧
    (updateCounter64 pow4Rounded 1234 0 (0 + 2000)).textContent = "1,234" :=
  updateCounter64_value_formula pow4Rounded 1234 0 500 pow4Rounded_zero pow4Rounded_one
    (by decide) (by norm_num)

theorem ClassList.contains_add (cl : ClassList) (c d : String) :
    ClassList.contains (ClassList.add cl c) d = (ClassList.contains cl d || decide (d = c)) := by
  unfold ClassList.contains ClassList.add
  by_cases h : c ∈ cl
  · by_cases hd : d = c
    · subst hd; simp [h]
    · simp [h, hd]
  · simp [h]

theorem ClassList.contains_remove (cl : ClassList) (c d : String) :
    ClassList.contains (ClassList.remove cl c) d = (ClassList.contains cl d && decide (d ≠ c)) := by
  unfold ClassList.contains ClassList.remove
  simp [List.mem_filter]

theorem ClassList.contains_toggle_self (cl : ClassList) (c : String) :
    ClassList.contains (ClassList.toggle cl c) c = !ClassList.contains cl c := by
  unfold ClassList.toggle
  by_cases h : c ∈ cl
  · rw [if_pos h, ClassList.contains_remove]
    simp [ClassList.contains, h]
  · rw [if_neg h, ClassList.contains_add]
    simp [ClassList.contains, h]

theorem cycleText_length (s : Cycler) :
    (cycleText s).cyclingItems.length = s.cyclingItems.length := by
  simp [cycleText]

theorem cycleText_isActive (s : Cycler) (i : Nat)
    (hi : i < s.cyclingItems.length) :
    isActive (cycleText s).cyclingItems i = decide (i = s.currentIndex) := by
  unfold isActive cycleText
  simp only [List.getD_eq_getElem?_getD, List.getElem?_modify]
  rw [List.getElem?_map, List.getElem?_eq_getElem hi]
  by_cases hc : s.currentIndex = i
  · subst hc
    simp [ClassList.contains_add]
  · have hc' : ¬ i = s.currentIndex := fun e => hc e.symm
    simp [hc, hc', ClassList.contains_remove]

theorem iterate_cycleText (items : List ClassList) (k : Nat) :
    (cycleText^[k] (Cycler.start items)).cyclingItems.length = items.length ∧
    (cycleText^[k] (Cycler.start items)).currentIndex = k % items.length := by
  induction k with
  | zero => simp [Cycler.start]
  | succ k ih =>
    rw [Function.iterate_succ_apply']
    refine ⟨by rw [cycleText_length]; exact ih.1, ?_⟩
    simp only [cycleText]
    rw [ih.1, ih.2]
    exact Nat.mod_add_mod k items.length 1

/-- After `k >= 1` runs of `cycleText` on `N >= 1` items exactly one item
carries `active`, its index is `(k - 1) mod N`, and the index to activate next
is `k mod N`. -/
theorem cycleText_active_index (cyclingItems : List ClassList) (k : Nat)
    (hN : 1 ≤ cyclingItems.length) (hk : 1 ≤ k) :
    (cycleText^[k] (Cycler.start cyclingItems)).cyclingItems.length = cyclingItems.length ∧
    (cycleText^[k] (Cycler.start cyclingItems)).currentIndex = k % cyclingItems.length ∧
    (k - 1) % cyclingItems.length < cyclingItems.length ∧
    ∀ i, i < cyclingItems.length →
      (isActive (cycleText^[k] (Cycler.start cyclingItems)).cyclingItems i = true ↔
        i = (k - 1) % cyclingItems.length) := by
  obtain ⟨j, rfl⟩ : ∃ j, k = j + 1 := ⟨k - 1, by omega⟩
  have hprev := iterate_cycleText cyclingItems j
  have hcur := iterate_cycleText cyclingItems (j + 1)
  refine ⟨hcur.1, hcur.2, Nat.mod_lt _ (by omega), ?_⟩
  intro i hi
  rw [Function.iterate_succ_apply', cycleText_isActive _ i (by rw [hprev.1]; exact hi)]
  rw [hprev.2]
  simp

/-- C4: for every `N >= 1` cycle items and every `k >= 0`, after `k` ticks (the
initial activation by the 2000 ms timeout followed by `k` firings of the
3000 ms interval) exactly one item carries `active`, and the index of that
item equals `k mod N`. -/
theorem cycleText_tick_index (cyclingItems : List ClassList) (k : Nat)
    (hN : 1 ≤ cyclingItems.length) :
    (afterTicks cyclingItems k).cyclingItems.length = cyclingItems.length ∧
    k % cyclingItems.length < cyclingItems.length ∧
    ∀ i, i < cyclingItems.length →
      (isActive (afterTicks cyclingItems k).cyclingItems i = true ↔
        i = k % cyclingItems.length) := by
  have h := cycleText_active_index cyclingItems (k + 1) hN (by omega)
  have hiter : afterTicks cyclingItems k = cycleText^[k + 1] (Cycler.start cyclingItems) := by
    unfold afterTicks
    rw [Function.iterate_succ_apply]
  rw [hiter]
  simp only [Nat.add_sub_cancel] at h
  exact ⟨h.1, h.2.2.1, h.2.2.2⟩

theorem cycleText_tick_index_witness :
    (afterTicks [["cycle-item", "active"], ["cycle-item"], ["cycle-item"]] 4).cyclingItems.length
      = 3 ∧
    4 % 3 < 3 ∧
    ∀ i, i < 3 →
      (isActive (afterTicks [["cycle-item", "active"], ["cycle-item"], ["cycle-item"]] 4).cyclingItems
        i = true ↔ i = 4 % 3) :=
  cycleText_tick_index [["cycle-item", "active"], ["cycle-item"], ["cycle-item"]] 4 (by decide)

theorem faqClick_of_active {faqItems : List ClassList} {item : Nat}
    (h : isActive faqItems item = true) :
    faqClick faqItems item =
      (faqItems.mapIdx (fun other otherItem =>
        if other ≠ item then ClassList.remove otherItem "active" else otherItem)).modify
        (fun it => ClassList.remove it "active") item := by
  unfold isActive at h
  simp only [faqClick, h, if_true]

theorem faqClick_of_inactive {faqItems : List ClassList} {item : Nat}
    (h : isActive faqItems item = false) :
    faqClick faqItems item =
      (faqItems.mapIdx (fun other otherItem =>
        if other ≠ item then ClassList.remove otherItem "active" else otherItem)).modify
        (fun it => ClassList.add it "active") item := by
  unfold isActive at h
  simp only [faqClick, h, Bool.false_eq_true, if_false]

theorem faqClick_length (faqItems : List ClassList) (item : Nat) :
    (faqClick faqItems item).length = faqItems.length := by
  cases h : isActive faqItems item
  · rw [faqClick_of_inactive h]; simp
  · rw [faqClick_of_active h]; simp

theorem faqClick_isActive (faqItems : List ClassList) (item j : Nat)
    (hj : j < faqItems.length) :
    isActive (faqClick faqItems item) j = (decide (j = item) && !isActive faqItems item) := by
  cases h : isActive faqItems item
  · rw [faqClick_of_inactive h]
    unfold isActive
    by_cases hji : j = item
    · subst hji
      simp [List.getD_eq_getElem?_getD, List.getElem?_modify, List.getElem?_eq_getElem hj,
        ClassList.contains_add]
    · have hij : ¬ item = j := fun e => hji e.symm
      simp [hji, hij, List.getD_eq_getElem?_getD, List.getElem?_modify,
        List.getElem?_eq_getElem hj, ClassList.contains_remove]
  · rw [faqClick_of_active h]
    unfold isActive
    by_cases hji : j = item
    · subst hji
      simp [List.getD_eq_getElem?_getD, List.getElem?_modify, List.getElem?_eq_getElem hj,
        ClassList.contains_remove]
    · have hij : ¬ item = j := fun e => hji e.symm
      simp [hji, hij, List.getD_eq_getElem?_getD, List.getElem?_modify,
        List.getElem?_eq_getElem hj, ClassList.contains_remove]

/-- C5: for every list of FAQ items, every initial assignment of `active` and
every sequence of earlier header clicks, after a click on the header of an
item at most one item is active; if the clicked item was collapsed it is then
the only active item, and if it was active no item is active. -/
theorem faqClick_exclusive (faqItems : List ClassList) (clicks : List Nat) (item : Nat)
    (hitem : item < faqItems.length) :
    (faqClick (clicks.foldl faqClick faqItems) item).length = faqItems.length ∧
    isActive (faqClick (clicks.foldl faqClick faqItems) item) item
      = !isActive (clicks.foldl faqClick faqItems) item ∧
    (∀ i j, i < faqItems.length → j < faqItems.length →
      isActive (faqClick (clicks.foldl faqClick faqItems) item) i = true →
      isActive (faqClick (clicks.foldl faqClick faqItems) item) j = true → i = j) ∧
    (isActive (clicks.foldl faqClick faqItems) item = false →
      ∀ j, j < faqItems.length →
        (isActive (faqClick (clicks.foldl faqClick faqItems) item) j = true ↔ j = item)) ∧
    (isActive (clicks.foldl faqClick faqItems) item = true →
      ∀ j, j < faqItems.length →
        isActive (faqClick (clicks.foldl faqClick faqItems) item) j = false) := by
  have hlen : ∀ (cs : List Nat) (l : List ClassList),
      (cs.foldl faqClick l).length = l.length := by
    intro cs
    induction cs with
    | nil => intro l; rfl
    | cons c cs ih => intro l; rw [List.foldl_cons, ih, faqClick_length]
  have hl := hlen clicks faqItems
  have hact : ∀ j, j < faqItems.length →
      isActive (faqClick (clicks.foldl faqClick faqItems) item) j
        = (decide (j = item) && !isActive (clicks.foldl faqClick faqItems) item) :=
    fun j hj => faqClick_isActive _ item j (by rw [hl]; exact hj)
  refine ⟨by rw [faqClick_length, hl], ?_, ?_, ?_, ?_⟩
  · rw [hact item hitem]
    simp
  · intro i j hi hj h1 h2
    rw [hact i hi] at h1
    rw [hact j hj] at h2
    simp at h1 h2
    rw [h1.1, h2.1]
  · intro h j hj
    rw [hact j hj, h]
    simp
  · intro h j hj
    rw [hact j hj, h]
    simp

theorem faqClick_exclusive_witness :
    (faqClick ([1].foldl faqClick [["faq-item", "active"], ["faq-item"], ["faq-item"]]) 1).length
      = 3 ∧
    isActive (faqClick ([1].foldl faqClick [["faq-item", "active"], ["faq-item"], ["faq-item"]]) 1)
      1 = false :=
  ⟨(faqClick_exclusive [["faq-item", "active"], ["faq-item"], ["faq-item"]] [1] 1
      (by decide)).1,
   (faqClick_exclusive [["faq-item", "active"], ["faq-item"], ["faq-item"]] [1] 1
      (by decide)).2.2.2.2 (by decide) 1 (by decide)⟩

theorem Menu.closed_inStep {m : Menu} (h : m.closed) : m.inStep ∧ m.isOpen = false := by
  obtain ⟨h1, h2, icon, h3, h4, h5⟩ := h
  refine ⟨⟨?_, icon, h3, ?_, ?_⟩, h1⟩
  · rw [Menu.isOpen, h1, h2]
  · rw [Menu.isOpen, h1, h5]
  · rw [Menu.isOpen, h1, h4]; rfl

theorem toggleClick_inStep {m : Menu} (h : m.inStep) :
    (toggleClick m).inStep ∧ (toggleClick m).isOpen = !m.isOpen := by
  obtain ⟨h1, icon, h2, h3, h4⟩ := h
  have ho : (toggleClick m).isOpen = !m.isOpen := by
    simp only [Menu.isOpen, toggleClick]
    exact ClassList.contains_toggle_self _ _
  refine ⟨⟨?_, ?_⟩, ho⟩
  · rw [ho, ← h1]
    simp only [toggleClick]
    exact ClassList.contains_toggle_self _ _
  · rw [ho]
    cases hopen : m.isOpen
    · rw [hopen] at h3 h4
      simp only [Bool.not_false] at h4
      refine ⟨_, by simp only [toggleClick, h2, Option.map_some']; rfl, ?_, ?_⟩
      · simp [h4, ClassList.contains_add]
      · simp [h4, ClassList.contains_add, ClassList.contains_remove]
    · rw [hopen] at h3 h4
      simp only [Bool.not_true] at h4
      refine ⟨_, by simp only [toggleClick, h2, Option.map_some']; rfl, ?_, ?_⟩
      · simp [h4, ClassList.contains_add, ClassList.contains_remove]
      · simp [h4, ClassList.contains_add]

theorem linkClick_closed {m : Menu} (h : m.inStep) : (linkClick m).closed := by
  obtain ⟨_, icon, h2, _, _⟩ := h
  refine ⟨?_, ?_, _, by simp only [linkClick, h2, Option.map_some']; rfl, ?_, ?_⟩
  · simp [linkClick, ClassList.contains_remove]
  · simp [linkClick, ClassList.contains_remove]
  · simp [ClassList.contains_add]
  · simp [ClassList.contains_add, ClassList.contains_remove]

theorem menuStep_inStep {m : Menu} (h : m.inStep) (e : MenuEvent) : (menuStep m e).inStep := by
  cases e
  · exact (toggleClick_inStep h).1
  · exact (Menu.closed_inStep (linkClick_closed h)).1

theorem foldl_menuStep_inStep (events : List MenuEvent) :
    ∀ m : Menu, m.inStep → (events.foldl menuStep m).inStep := by
  induction events with
  | nil => intro m h; exact h
  | cons e es ih => intro m h; exact ih _ (menuStep_inStep h e)

/-- C9: starting from the closed state, after every sequence of toggle clicks
and navigation-link clicks the panel, the toggle and the icon are in step; a
toggle click flips the common state and a link click leaves the menu closed;
one toggle click from the initial state opens the menu and a following link
click closes it. -/
theorem mobileMenu_states_in_step (m0 : Menu) (h0 : m0.closed) (events : List MenuEvent) :
    (events.foldl menuStep m0).inStep ∧
    (toggleClick (events.foldl menuStep m0)).inStep ∧
    (toggleClick (events.foldl menuStep m0)).isOpen = !(events.foldl menuStep m0).isOpen ∧
    (linkClick (events.foldl menuStep m0)).closed ∧
    (linkClick (events.foldl menuStep m0)).isOpen = false ∧
    (toggleClick m0).isOpen = true ∧
    (linkClick (toggleClick m0)).isOpen = false := by
  have hs := foldl_menuStep_inStep events m0 (Menu.closed_inStep h0).1
  have ht := toggleClick_inStep hs
  have hl := linkClick_closed hs
  have ht0 := toggleClick_inStep (Menu.closed_inStep h0).1
  refine ⟨hs, ht.1, ht.2, hl, (Menu.closed_inStep hl).2, ?_, ?_⟩
  · rw [ht0.2, (Menu.closed_inStep h0).2]; rfl
  · exact (Menu.closed_inStep (linkClick_closed ht0.1)).2

theorem mobileMenu_states_in_step_witness :
    (toggleClick closedMenu).isOpen = true ∧
    (linkClick (toggleClick closedMenu)).isOpen = false :=
  (mobileMenu_states_in_step closedMenu
    ⟨by decide, by decide, ["fas", "fa-bars"], rfl, by decide, by decide⟩
    [MenuEvent.toggle, MenuEvent.link, MenuEvent.toggle]).2.2.2.2.2

theorem categoryTagsAux_sub (s : List Char) :
    ∀ (cur tok : List Char), tok ∈ categoryTagsAux s cur → tok <:+: cur ++ s := by
  induction s with
  | nil =>
    intro cur tok h
    simp only [categoryTagsAux] at h
    split_ifs at h with hc
    · simp at h
    · simp only [List.mem_singleton] at h
      subst h
      simp
  | cons c cs ih =>
    intro cur tok h
    simp only [categoryTagsAux] at h
    split_ifs at h with hsep hc
    · have := ih [] tok h
      simp only [List.nil_append] at this
      exact this.trans ((List.suffix_cons c cs).isInfix.trans (List.suffix_append cur _).isInfix)
    · rcases List.mem_cons.mp h with h | h
      · subst h
        exact (List.prefix_append tok _).isInfix
      · have := ih [] tok h
        simp only [List.nil_append] at this
        exact this.trans ((List.suffix_cons c cs).isInfix.trans (List.suffix_append cur _).isInfix)
    · have := ih (cur ++ [c]) tok h
      simpa using this

theorem includes_of_mem_categoryTags {categories f : String} (h : f ∈ categoryTags categories) :
    includes categories f = true := by
  unfold categoryTags at h
  obtain ⟨l, hl, rfl⟩ := List.mem_map.mp h
  have := categoryTagsAux_sub categories.data [] l hl
  simpa [includes] using this

/-- What the listener does to one card that has a `data-category`. -/
theorem filterCard_some (f categories : String) (card : ProjectCard)
    (h : card.dataCategory = some categories) :
    filterCard (some f) card =
      some (if f = "all" ∨ includes categories f = true then
        { card with display := "block", animation := "fadeInUp 0.5s ease forwards" }
      else { card with display := "none" }) := by
  unfold filterCard
  by_cases hall : f = "all"
  · simp [hall]
  · by_cases hinc : includes categories f = true
    · simp [hall, h, hinc, attrToString]
    · simp [hall, h, hinc, attrToString]

theorem filterCards_getElem? (f : String) :
    ∀ (cards : List ProjectCard), (∀ c ∈ cards, c.dataCategory ≠ none) →
      ∃ cards', filterCards (some f) cards = some cards' ∧ cards'.length = cards.length ∧
        ∀ (i : Nat) (c : ProjectCard), cards[i]? = some c →
          (filterCard (some f) c).isSome = true ∧
          cards'[i]? = filterCard (some f) c := by
  intro cards
  induction cards with
  | nil => intro _; exact ⟨[], rfl, rfl, by simp⟩
  | cons card rest ih =>
    intro h
    obtain ⟨rest', hr, hlen, hget⟩ := ih (fun c hc => h c (List.mem_cons_of_mem _ hc))
    obtain ⟨categories, hcat⟩ := Option.ne_none_iff_exists'.mp (h card (List.mem_cons_self _ _))
    obtain ⟨c', hcard⟩ : ∃ c', filterCard (some f) card = some c' :=
      ⟨_, filterCard_some f categories card hcat⟩
    refine ⟨c' :: rest', by simp only [filterCards, hcard, hr], by simp [hlen], ?_⟩
    intro i c hi
    cases i with
    | zero =>
      simp only [List.getElem?_cons_zero, Option.some.injEq] at hi
      subst hi
      simp [hcard]
    | succ i =>
      simp only [List.getElem?_cons_succ] at hi
      simpa using hget i c hi

/-- C6 (as stated, refuted): a card whose only category tag is `redesign` is
shown by the filter `design`, which is not one of its tags: the listener tests
whether the attribute text contains the filter, not whether the filter is one
of the tags. -/
theorem filterClick_substring_match :
    categoryTags "redesign" = ["redesign"] ∧ "design" ∉ categoryTags "redesign" ∧
    filterClick
      { filterButtons := [{ dataFilter := some "design", classList := ["filter-btn"] }]
        projectCards := [{ dataCategory := some "redesign", display := "", animation := "" }] } 0
      = some
      { filterButtons := [{ dataFilter := some "design", classList := ["filter-btn", "active"] }]
        projectCards := [{ dataCategory := some "redesign", display := "block",
                           animation := "fadeInUp 0.5s ease forwards" }] } := by
  decide

/-- C6 (amended): for every list of project cards that each carry a
`data-category` and every filter `f`, after selecting `f` a card is shown
(display `block`) if and only if `f` is `all` or the card's `data-category`
text contains `f` as a substring, and is hidden (display `none`) otherwise; so
every card that has `f` among its tags is shown, and after selecting `all`
every card is shown. -/
theorem filterClick_display (s : FilterState) (button : Nat) (b : FilterButton) (f : String)
    (hb : s.filterButtons[button]? = some b) (hf : b.dataFilter = some f)
    (hcat : ∀ c ∈ s.projectCards, c.dataCategory ≠ none) :
    ∃ s', filterClick s button = some s' ∧
      s'.projectCards.length = s.projectCards.length ∧
      ∀ (i : Nat) (c : ProjectCard) (categories : String),
        s.projectCards[i]? = some c → c.dataCategory = some categories →
        ∃ c', s'.projectCards[i]? = some c' ∧
          (c'.display = "block" ↔ (f = "all" ∨ includes categories f = true)) ∧
          (c'.display = "none" ↔ ¬ (f = "all" ∨ includes categories f = true)) ∧
          (f ∈ categoryTags categories → c'.display = "block") := by
  obtain ⟨cards', hcards, hlen, hget⟩ := filterCards_getElem? f s.projectCards hcat
  have hclick : ∃ s', filterClick s button = some s' ∧ s'.projectCards = cards' := by
    simp only [filterClick, hb, hf, hcards]
    exact ⟨_, rfl, rfl⟩
  obtain ⟨s', hs', hcs⟩ := hclick
  refine ⟨s', hs', by rw [hcs]; exact hlen, ?_⟩
  rw [hcs]
  intro i c categories hi hc
  have h1 := (hget i c hi).2
  rw [filterCard_some f categories c hc] at h1
  refine ⟨_, h1, ?_⟩
  by_cases hshow : f = "all" ∨ includes categories f = true
  · rw [if_pos hshow]
    refine ⟨by simp [hshow], by simp [hshow], fun _ => rfl⟩
  · rw [if_neg hshow]
    refine ⟨by simp [hshow], by simp [hshow], fun ht => ?_⟩
    exact absurd (Or.inr (includes_of_mem_categoryTags ht)) hshow

theorem filterClick_display_witness :
    ∃ s', filterClick
        { filterButtons := [{ dataFilter := some "design", classList := [] }]
          projectCards := [{ dataCategory := some "web design", display := "", animation := "" },
                           { dataCategory := some "mobile", display := "", animation := "" }] } 0
        = some s' ∧
      s'.projectCards.length = 2 ∧
      (s'.projectCards.map (fun c => c.display)) = ["block", "none"] := by
  obtain ⟨s', h1, h2, _⟩ := filterClick_display
    { filterButtons := [{ dataFilter := some "design", classList := [] }]
      projectCards := [{ dataCategory := some "web design", display := "", animation := "" },
                       { dataCategory := some "mobile", display := "", animation := "" }] }
    0 { dataFilter := some "design", classList := [] } "design" rfl rfl (by decide)
  refine ⟨s', h1, h2, ?_⟩
  have h3 : some s' = some
      { filterButtons := [{ dataFilter := some "design", classList := ["active"] }]
        projectCards := [{ dataCategory := some "web design", display := "block",
                           animation := "fadeInUp 0.5s ease forwards" },
                         { dataCategory := some "mobile", display := "none", animation := "" }] } := by
    rw [← h1]
    decide
  rw [Option.some.inj h3]
  rfl

/-- C7 (code evaluated at the failing input): a counter item that enters the
viewport, leaves it and enters it again has its counter animation started
twice, once at each intersecting notification. -/
theorem fadeObserver_restarts_counter :
    (fadeObserverCallback { doc := cardPage, effects := [] }
      [{ target := 4, isIntersecting := true }]).effects
      = [.requestAnimationFrame (.updateCounter 5 (some 150))] ∧
    ([[{ target := 4, isIntersecting := true }], [{ target := 4, isIntersecting := false }],
      [{ target := 4, isIntersecting := true }]].foldl fadeObserverCallback
        { doc := cardPage, effects := [] }).effects
      = [.requestAnimationFrame (.updateCounter 5 (some 150)),
         .requestAnimationFrame (.updateCounter 5 (some 150))] := by
  decide

/-- C10 (code evaluated at the failing input): without `IntersectionObserver`
the service card and the counter item of `cardPage`, both matched by the
selector list of `initScrollAnimations`, carry no `visible` class after the
top-level code and the page-ready listener have run; the listener is cut short
by the `ReferenceError` of `new IntersectionObserver`. -/
theorem fallback_misses_watched_elements :
    getAllElements cardPage fadeSelector = [3, 4] ∧
    ClassList.contains ((runScript legacyBrowser cardPage).classListOf 3) "visible" = false ∧
    ClassList.contains ((runScript legacyBrowser cardPage).classListOf 4) "visible" = false ∧
    (topLevel legacyBrowser { doc := cardPage, effects := [] }).error = none ∧
    (pageReady legacyBrowser
      (topLevel legacyBrowser { doc := cardPage, effects := [] }).page).error
      = some (.referenceError "IntersectionObserver") := by
  decide

theorem getAllElements_eq_nil_iff (doc : List Element) (selector : List Selector) :
    getAllElements doc selector = [] ↔
      ∀ (i : Nat) (e : Element), doc[i]? = some e →
        ∀ sel ∈ selector, e.matchesSelector doc sel = false := by
  unfold getAllElements
  rw [List.filter_eq_nil_iff]
  constructor
  · intro h i e hi sel hsel
    have hlt : i < doc.length := by
      by_contra hge
      rw [List.getElem?_eq_none (by omega)] at hi
      exact Option.noConfusion hi
    have := h i (List.mem_range.mpr hlt)
    rw [hi] at this
    simp only [List.any_eq_true, not_exists, not_and] at this
    exact Bool.eq_false_iff.mpr (this sel hsel)
  · intro h i _
    cases hi : doc[i]? with
    | none => simp
    | some e =>
      simp only [List.any_eq_true, not_exists, not_and]
      intro sel hsel
      rw [h i e hi sel hsel]
      exact Bool.false_ne_true

theorem getAllElements_nil_of_each {doc : List Element} {selector : List Selector}
    (h : ∀ sel ∈ selector, getAllElements doc [sel] = []) : getAllElements doc selector = [] := by
  rw [getAllElements_eq_nil_iff]
  intro i e hi sel hsel
  exact (getAllElements_eq_nil_iff doc [sel]).mp (h sel hsel) i e hi sel (List.mem_singleton.mpr rfl)

theorem getElement_none {doc : List Element} {sel : Selector}
    (h : getAllElements doc [sel] = []) : getElement doc [sel] = none := by
  unfold getElement
  rw [h]
  rfl

/-- C8 (as stated, refuted): on a page with no `img[data-src]` element
`initPerformanceOptimizations` returns without throwing but appends a
`link rel="preload"` element to the head, so the document is not left
unchanged. -/
theorem initPerformanceOptimizations_appends_link :
    Initializer.selectsNothing .performanceOptimizations emptyPage ∧
    (Initializer.run legacyBrowser .performanceOptimizations
      { doc := emptyPage, effects := [] }).error = none ∧
    (Initializer.run legacyBrowser .performanceOptimizations
      { doc := emptyPage, effects := [] }).page.doc
      = emptyPage ++
        [{ tag := "link", id := "", classList := [],
           attrs := [("rel", "preload"),
             ("href", "https://cdnjs.cloudflare.com/ajax/libs/font-awesome/6.4.0/css/all.min.css"),
             ("as", "style")],
           textContent := "", parent := some 1 }] ∧
    (Initializer.run legacyBrowser .performanceOptimizations
      { doc := emptyPage, effects := [] }).page.doc ≠ emptyPage := by
  refine ⟨?_, by decide, by decide, by decide⟩
  unfold Initializer.selectsNothing
  decide

/-- C8 (amended): for every initializer other than
`initPerformanceOptimizations` and every document that contains none of the
elements the initializer selects, the call returns without throwing and leaves
the document unchanged (and, `initLoadingAnimation` apart, registers nothing);
`initPerformanceOptimizations` on a document with a head and no
`img[data-src]` returns without throwing and appends one preload link to the
head. -/
theorem initializer_without_elements (env : Env) (init : Initializer) (p : Page)
    (hnone : init.selectsNothing p.doc) :
    (init ≠ .performanceOptimizations →
      (init.run env p).error = none ∧ (init.run env p).page.doc = p.doc ∧
      (init ≠ .loadingAnimation → init.run env p = .ok p)) ∧
    (init = .performanceOptimizations →
      ∀ head, getElement p.doc [.tag "head"] = some head →
        init.run env p = .ok { p with doc := p.doc ++
          [{ preloadLink "https://cdnjs.cloudflare.com/ajax/libs/font-awesome/6.4.0/css/all.min.css"
             with parent := some head }] }) := by
  unfold Initializer.selectsNothing at hnone
  cases init with
  | loadingAnimation =>
    refine ⟨fun _ => ⟨rfl, rfl, fun h => absurd rfl h⟩, fun h => Initializer.noConfusion h⟩
  | navbarScrollEffect =>
    have h1 := getElement_none (hnone (.cls "main-nav") (by simp [Initializer.selects]))
    have : initNavbarScrollEffect p = .ok p := by simp [initNavbarScrollEffect, h1]
    refine ⟨fun _ => ?_, fun h => Initializer.noConfusion h⟩
    simp [Initializer.run, this, Result.error, Result.page]
  | scrollAnimations =>
    have h1 : getAllElements p.doc fadeSelector = [] := getAllElements_nil_of_each hnone
    have : initScrollAnimations env p = .ok p := by simp [initScrollAnimations, h1]
    refine ⟨fun _ => ?_, fun h => Initializer.noConfusion h⟩
    simp [Initializer.run, this, Result.error, Result.page]
  | particles =>
    have h1 := getElement_none (hnone (.ident "particles-js") (by simp [Initializer.selects]))
    have : initParticles env p = .ok p := by simp [initParticles, h1]
    refine ⟨fun _ => ?_, fun h => Initializer.noConfusion h⟩
    simp [Initializer.run, this, Result.error, Result.page]
  | cyclingText =>
    have h1 := hnone (.cls "cycle-item") (by simp [Initializer.selects])
    have : initCyclingText p = .ok p := by simp [initCyclingText, h1]
    refine ⟨fun _ => ?_, fun h => Initializer.noConfusion h⟩
    simp [Initializer.run, this, Result.error, Result.page]
  | swiperCarousels =>
    have h1 := getElement_none (hnone (.cls "projects-swiper") (by simp [Initializer.selects]))
    have h2 := getElement_none (hnone (.cls "testimonials-swiper") (by simp [Initializer.selects]))
    have : initSwiperCarousels env p = .ok p := by simp [initSwiperCarousels, h1, h2]
    refine ⟨fun _ => ?_, fun h => Initializer.noConfusion h⟩
    simp [Initializer.run, this, Result.error, Result.page]
  | faqAccordion =>
    have h1 := hnone (.cls "faq-item") (by simp [Initializer.selects])
    have : initFAQAccordion p = .ok p := by simp [initFAQAccordion, h1]
    refine ⟨fun _ => ?_, fun h => Initializer.noConfusion h⟩
    simp [Initializer.run, this, Result.error, Result.page]
  | projectFiltering =>
    have h1 := hnone (.cls "filter-btn") (by simp [Initializer.selects])
    have : initProjectFiltering p = .ok p := by simp [initProjectFiltering, h1]
    refine ⟨fun _ => ?_, fun h => Initializer.noConfusion h⟩
    simp [Initializer.run, this, Result.error, Result.page]
  | contactForm =>
    have h1 := getElement_none (hnone (.ident "contactForm") (by simp [Initializer.selects]))
    have : initContactForm p = .ok p := by simp [initContactForm, h1]
    refine ⟨fun _ => ?_, fun h => Initializer.noConfusion h⟩
    simp [Initializer.run, this, Result.error, Result.page]
  | mobileMenu =>
    have h1 := getElement_none (hnone (.cls "mobile-menu-toggle") (by simp [Initializer.selects]))
    have : initMobileMenu p = .ok p := by simp [initMobileMenu, h1]
    refine ⟨fun _ => ?_, fun h => Initializer.noConfusion h⟩
    simp [Initializer.run, this, Result.error, Result.page]
  | smoothScrolling =>
    have h1 := hnone (.tagAttrPrefix "a" "href" "#") (by simp [Initializer.selects])
    have : initSmoothScrolling p = .ok p := by simp [initSmoothScrolling, h1]
    refine ⟨fun _ => ?_, fun h => Initializer.noConfusion h⟩
    simp [Initializer.run, this, Result.error, Result.page]
  | gsapAnimations =>
    have h1 := getElement_none (hnone (.cls "hero-title") (by simp [Initializer.selects]))
    have h2 := hnone (.cls "service-card") (by simp [Initializer.selects])
    have : initGSAPAnimations env p = .ok p := by
      cases hg : env.hasGsap <;> simp [initGSAPAnimations, h1, h2, hg]
    refine ⟨fun _ => ?_, fun h => Initializer.noConfusion h⟩
    simp [Initializer.run, this, Result.error, Result.page]
  | performanceOptimizations =>
    refine ⟨fun h => absurd rfl h, fun _ head hhead => ?_⟩
    have h1 := hnone (.tagAttr "img" "data-src") (by simp [Initializer.selects])
    simp [Initializer.run, initPerformanceOptimizations, h1, criticalResources, Result.andThen,
      Page.appendToHead, hhead]

theorem initializer_without_elements_witness :
    (Initializer.run legacyBrowser .scrollAnimations { doc := emptyPage, effects := [] }).error
      = none ∧
    (Initializer.run legacyBrowser .scrollAnimations { doc := emptyPage, effects := [] }).page.doc
      = emptyPage :=
  have h := (initializer_without_elements legacyBrowser .scrollAnimations
    { doc := emptyPage, effects := [] }
    (by unfold Initializer.selectsNothing; decide)).1 (by decide)
  ⟨h.1, h.2.1⟩

/-- The two states the contact form moves between: idle with the original
label, or waiting for one timeout with the control disabled. -/
theorem formStep_states (label : String) {s : ContactForm}
    (h : (s.pending = [] ∧
          s.submitBtn = some { textContent := label, disabled := false } ∧
          s.resets = s.defaultPrevented ∧ s.alerts.length = s.defaultPrevented) ∨
         (s.pending = [label] ∧
          s.submitBtn = some { textContent := "Sending...", disabled := true } ∧
          s.resets + 1 = s.defaultPrevented ∧ s.alerts.length + 1 = s.defaultPrevented))
    (e : FormEvent) :
    ((formStep s e).pending = [] ∧
      (formStep s e).submitBtn = some { textContent := label, disabled := false } ∧
      (formStep s e).resets = (formStep s e).defaultPrevented ∧
      (formStep s e).alerts.length = (formStep s e).defaultPrevented) ∨
    ((formStep s e).pending = [label] ∧
      (formStep s e).submitBtn = some { textContent := "Sending...", disabled := true } ∧
      (formStep s e).resets + 1 = (formStep s e).defaultPrevented ∧
      (formStep s e).alerts.length + 1 = (formStep s e).defaultPrevented) := by
  rcases h with ⟨hp, hb, hr, ha⟩ | ⟨hp, hb, hr, ha⟩
  · cases e with
    | submit =>
      right
      simp [formStep, submitHandler, hp, hb, hr, ha]
    | timeout =>
      left
      simp [formStep, hp, hb, hr, ha]
    | input values =>
      left
      simp [formStep, hp, hb, hr, ha]
  · cases e with
    | submit =>
      right
      simp [formStep, hp, hb, hr, ha]
    | timeout =>
      left
      simp [formStep, timeoutCallback, hp, hb, hr, ha]
    | input values =>
      right
      simp [formStep, hp, hb, hr, ha]

/-- C11: for a contact form whose submit control is enabled and idle, after
every sequence of submit requests, timeouts and edits at most one timeout is
pending, and once every pending timeout has fired the control is enabled and
carries the label it had before the first submit, and every submit event has
been followed by its alert and its `reset()`; while a timeout is pending the
control is disabled, and the firing of the timeout resets the fields. -/
theorem contactForm_restores_label (form : ContactForm) (b : SubmitButton)
    (events : List FormEvent)
    (hbtn : form.submitBtn = some b) (henabled : b.disabled = false)
    (hidle : form.pending = [])
    (hfresh : form.resets = form.defaultPrevented ∧
      form.alerts.length = form.defaultPrevented) :
    (events.foldl formStep form).pending.length ≤ 1 ∧
    ((events.foldl formStep form).pending = [] →
      (events.foldl formStep form).submitBtn
        = some { textContent := b.textContent, disabled := false } ∧
      (events.foldl formStep form).resets = (events.foldl formStep form).defaultPrevented ∧
      (events.foldl formStep form).alerts.length
        = (events.foldl formStep form).defaultPrevented) ∧
    ((events.foldl formStep form).pending ≠ [] →
      (events.foldl formStep form).submitBtn
        = some { textContent := "Sending...", disabled := true } ∧
      (formStep (events.foldl formStep form) .timeout).fields
        = (events.foldl formStep form).defaults ∧
      (formStep (events.foldl formStep form) .timeout).pending = [] ∧
      (formStep (events.foldl formStep form) .timeout).submitBtn
        = some { textContent := b.textContent, disabled := false }) := by
  have hstart : (form.pending = [] ∧
      form.submitBtn = some { textContent := b.textContent, disabled := false } ∧
      form.resets = form.defaultPrevented ∧ form.alerts.length = form.defaultPrevented) ∨
      (form.pending = [b.textContent] ∧
      form.submitBtn = some { textContent := "Sending...", disabled := true } ∧
      form.resets + 1 = form.defaultPrevented ∧
      form.alerts.length + 1 = form.defaultPrevented) := by
    left
    refine ⟨hidle, ?_, hfresh.1, hfresh.2⟩
    rw [hbtn]
    cases b
    simp only at henabled
    subst henabled
    rfl
  have hinv : ∀ (evs : List FormEvent) (s : ContactForm),
      ((s.pending = [] ∧
        s.submitBtn = some { textContent := b.textContent, disabled := false } ∧
        s.resets = s.defaultPrevented ∧ s.alerts.length = s.defaultPrevented) ∨
       (s.pending = [b.textContent] ∧
        s.submitBtn = some { textContent := "Sending...", disabled := true } ∧
        s.resets + 1 = s.defaultPrevented ∧ s.alerts.length + 1 = s.defaultPrevented)) →
      (((evs.foldl formStep s).pending = [] ∧
        (evs.foldl formStep s).submitBtn
          = some { textContent := b.textContent, disabled := false } ∧
        (evs.foldl formStep s).resets = (evs.foldl formStep s).defaultPrevented ∧
        (evs.foldl formStep s).alerts.length = (evs.foldl formStep s).defaultPrevented) ∨
       ((evs.foldl formStep s).pending = [b.textContent] ∧
        (evs.foldl formStep s).submitBtn
          = some { textContent := "Sending...", disabled := true } ∧
        (evs.foldl formStep s).resets + 1 = (evs.foldl formStep s).defaultPrevented ∧
        (evs.foldl formStep s).alerts.length + 1
          = (evs.foldl formStep s).defaultPrevented)) := by
    intro evs
    induction evs with
    | nil => intro s h; exact h
    | cons e es ih => intro s h; exact ih _ (formStep_states b.textContent h e)
  have hfin := hinv events form hstart
  generalize events.foldl formStep form = s at hfin
  rcases hfin with ⟨hp, hb, hr, ha⟩ | ⟨hp, hb, hr, ha⟩
  · refine ⟨by simp [hp], fun _ => ⟨hb, hr, ha⟩, fun hne => absurd hp hne⟩
  · refine ⟨by simp [hp], fun hnil => ?_, fun _ => ⟨hb, ?_, ?_, ?_⟩⟩
    · rw [hp] at hnil
      exact absurd hnil (by simp)
    · simp [formStep, timeoutCallback, hp]
    · simp [formStep, timeoutCallback, hp]
    · simp [formStep, timeoutCallback, hp, hb]

theorem contactForm_restores_label_witness :
    ([FormEvent.submit, .submit, .timeout, .input ["Bo", "", ""], .submit, .timeout].foldl
        formStep filledForm).submitBtn
      = some { textContent := "Send Message", disabled := false } ∧
    ([FormEvent.submit, .submit, .timeout, .input ["Bo", "", ""], .submit, .timeout].foldl
        formStep filledForm).resets
      = ([FormEvent.submit, .submit, .timeout, .input ["Bo", "", ""], .submit, .timeout].foldl
        formStep filledForm).defaultPrevented ∧
    ([FormEvent.submit, .submit, .timeout, .input ["Bo", "", ""], .submit, .timeout].foldl
        formStep filledForm).alerts.length
      = ([FormEvent.submit, .submit, .timeout, .input ["Bo", "", ""], .submit, .timeout].foldl
        formStep filledForm).defaultPrevented :=
  (contactForm_restores_label filledForm { textContent := "Send Message", disabled := false }
    [FormEvent.submit, .submit, .timeout, .input ["Bo", "", ""], .submit, .timeout]
    rfl rfl rfl ⟨rfl, rfl⟩).2.1 (by decide)

theorem animationFrame_of_pending_one {s : ScrollState} (h : s.pending = 1) :
    animationFrame s =
      { navbar :=
          if s.scrollY > 100 then ClassList.add s.navbar "scrolled"
          else ClassList.remove s.navbar "scrolled"
        scrollY := s.scrollY
        lastScrollY := s.scrollY
        ticking := false
        pending := 0
        handled := s.handled + 1 } := by
  simp [animationFrame, h, frameCallback, handleScroll]

theorem animationFrame_of_pending_zero {s : ScrollState} (h : s.pending = 0) :
    animationFrame s = s := by
  cases s
  simp only at h
  subst h
  rfl

theorem scrollStep_throttled {s : ScrollState} (h : s.throttled) (e : ScrollEvent) :
    (scrollStep s e).throttled := by
  cases e with
  | moveTo y => exact h
  | scroll =>
    rcases h with ⟨ht, hp⟩ | ⟨ht, hp⟩
    · left
      simp [scrollStep, scrollListener, ht, hp]
    · left
      simp [scrollStep, scrollListener, ht, hp]
  | frame =>
    right
    rcases h with ⟨_, hp⟩ | ⟨ht, hp⟩
    · simp [scrollStep, animationFrame_of_pending_one hp]
    · simp [scrollStep, animationFrame_of_pending_zero hp, ht, hp]

theorem scrollRun_throttled (navbar : ClassList) (scrollY : ℚ) (events : List ScrollEvent) :
    (scrollRun navbar scrollY events).throttled := by
  unfold scrollRun
  have hstart : (ScrollState.start navbar scrollY).throttled := Or.inr ⟨rfl, rfl⟩
  generalize ScrollState.start navbar scrollY = s at hstart
  induction events generalizing s with
  | nil => exact hstart
  | cons e es ih => exact ih _ (scrollStep_throttled hstart e)

theorem scrollListener_of_ticking {s : ScrollState} (h : s.ticking = true) :
    scrollListener s = s := by
  simp [scrollListener, h]

theorem iterate_scrollListener {s : ScrollState} (h : s.throttled) (k : Nat) :
    (scrollListener^[k + 1] s).pending = 1 ∧
    (scrollListener^[k + 1] s).handled = s.handled ∧
    (scrollListener^[k + 1] s).scrollY = s.scrollY := by
  induction k with
  | zero =>
    rcases h with ⟨ht, hp⟩ | ⟨ht, hp⟩ <;>
      simp [scrollListener, ht, hp]
  | succ k ih =>
    rw [Function.iterate_succ_apply']
    obtain ⟨h1, h2, h3⟩ := ih
    have hth : (scrollListener^[k + 1] s).throttled := by
      have : ∀ n, (scrollListener^[n] s).throttled := by
        intro n
        induction n with
        | zero => exact h
        | succ n ihn =>
          rw [Function.iterate_succ_apply']
          exact scrollStep_throttled ihn .scroll
      exact this (k + 1)
    generalize scrollListener^[k + 1] s = t at h1 h2 h3 hth
    rcases hth with ⟨ht, _⟩ | ⟨_, hp⟩
    · rw [scrollListener_of_ticking ht]
      exact ⟨h1, h2, h3⟩
    · omega

/-- C12: after every interleaving of scroll offsets, scroll events and
animation frames, `ticking` is true exactly when one `handleScroll` callback
is scheduled and not yet run, and at most one is pending; a frame runs
`handleScroll` at most once and leaves nothing pending; however many scroll
events (one or more) arrive before a frame, that frame runs `handleScroll`
exactly once; and after a run the navbar carries `scrolled` if and only if the
scroll offset read by that run is greater than 100. -/
theorem scroll_throttle (navbar : ClassList) (scrollY : ℚ) (events : List ScrollEvent)
    (k : Nat) :
    ((scrollRun navbar scrollY events).ticking = true ↔
      (scrollRun navbar scrollY events).pending = 1) ∧
    ((scrollRun navbar scrollY events).ticking = false ↔
      (scrollRun navbar scrollY events).pending = 0) ∧
    (scrollRun navbar scrollY events).pending ≤ 1 ∧
    (scrollStep (scrollRun navbar scrollY events) .frame).handled
      = (scrollRun navbar scrollY events).handled + (scrollRun navbar scrollY events).pending ∧
    (scrollStep (scrollRun navbar scrollY events) .frame).pending = 0 ∧
    (scrollStep (scrollRun navbar scrollY events) .frame).ticking = false ∧
    (scrollStep (scrollRun navbar scrollY events) .scroll).handled
      = (scrollRun navbar scrollY events).handled ∧
    (animationFrame (scrollListener^[k + 1] (scrollRun navbar scrollY events))).handled
      = (scrollRun navbar scrollY events).handled + 1 ∧
    ((scrollRun navbar scrollY events).pending = 1 →
      (animationFrame (scrollRun navbar scrollY events)).lastScrollY
        = (scrollRun navbar scrollY events).scrollY ∧
      (ClassList.contains (animationFrame (scrollRun navbar scrollY events)).navbar "scrolled"
        = true ↔ (scrollRun navbar scrollY events).scrollY > 100)) := by
  have hth := scrollRun_throttled navbar scrollY events
  generalize scrollRun navbar scrollY events = s at hth
  have hk := iterate_scrollListener hth k
  have hframe : (scrollStep s .frame).handled = s.handled + s.pending ∧
      (scrollStep s .frame).pending = 0 ∧ (scrollStep s .frame).ticking = false := by
    rcases hth with ⟨_, hp⟩ | ⟨ht, hp⟩
    · simp [scrollStep, animationFrame_of_pending_one hp, hp]
    · simp [scrollStep, animationFrame_of_pending_zero hp, hp, ht]
  have hscroll : (scrollStep s .scroll).handled = s.handled := by
    simp only [scrollStep, scrollListener]
    split_ifs <;> rfl
  refine ⟨?_, ?_, ?_, hframe.1, hframe.2.1, hframe.2.2, hscroll, ?_, ?_⟩
  · rcases hth with ⟨ht, hp⟩ | ⟨ht, hp⟩ <;> simp [ht, hp]
  · rcases hth with ⟨ht, hp⟩ | ⟨ht, hp⟩ <;> simp [ht, hp]
  · rcases hth with ⟨_, hp⟩ | ⟨_, hp⟩ <;> omega
  · rw [animationFrame_of_pending_one hk.1, hk.2.1]
  · intro hp
    rw [animationFrame_of_pending_one hp]
    refine ⟨rfl, ?_⟩
    by_cases hy : s.scrollY > 100
    · simp [hy, ClassList.contains_add]
    · simp [hy, ClassList.contains_remove]

theorem scroll_throttle_witness :
    (animationFrame (scrollRun ["main-nav"] 0 [.moveTo 150, .scroll, .scroll])).lastScrollY
      = (scrollRun ["main-nav"] 0 [.moveTo 150, .scroll, .scroll]).scrollY ∧
    (ClassList.contains
      (animationFrame (scrollRun ["main-nav"] 0 [.moveTo 150, .scroll, .scroll])).navbar
      "scrolled" = true ↔
      (scrollRun ["main-nav"] 0 [.moveTo 150, .scroll, .scroll]).scrollY > 100) :=
  (scroll_throttle ["main-nav"] 0 [.moveTo 150, .scroll, .scroll] 0).2.2.2.2.2.2.2.2 (by decide)

end Site
